import Mathlib

/-!
mysqlproxy: a shallow embedding of the protocol interception core.

Bytes are natural numbers (a byte value is `< 256`, conversions `byte(x)` are
`x % 256`).  A Go `[]byte` whose length equals its capacity (the relay allocates
`make([]byte, 4*1024)`) is a `List Nat`.  A Go runtime failure (index or slice
bound out of range) is `none`.
-/

namespace Mysqlproxy

/-! ## Go primitives used by the source -/

/-- Go `bytes.IndexByte(s, c)`: index of the first `c` in `s`, `none` for `-1`. -/
def indexByte : List Nat → Nat → Option Nat
  | [], _ => none
  | b :: bs, c => if b = c then some 0 else (indexByte bs c).map (· + 1)

/-- Go slice expression `data[lo:hi]` on a slice with `len = cap`. -/
def slice (data : List Nat) (lo hi : Nat) : Option (List Nat) :=
  if lo ≤ hi ∧ hi ≤ data.length then some ((data.take hi).drop lo) else none

/-- Go slice expression `data[lo:]`. -/
def sliceFrom (data : List Nat) (lo : Nat) : Option (List Nat) :=
  if lo ≤ data.length then some (data.drop lo) else none

/-- Go `copy(data[off:], src)` for `off ≤ len(data)`: the number of bytes copied. -/
def copyLen (data : List Nat) (off : Nat) (src : List Nat) : Nat :=
  min (data.length - off) src.length

/-- Go `copy(data[off:], src)` for `off ≤ len(data)`: the buffer afterwards.
`src` is the value of the source bytes before the call (`copy` handles
overlapping slices as if through a temporary). -/
def copyAt (data : List Nat) (off : Nat) (src : List Nat) : List Nat :=
  data.take off ++ src.take (copyLen data off src) ++ data.drop (off + copyLen data off src)

/-- Go indexed store `data[i] = v`. -/
def store (data : List Nat) (i v : Nat) : Option (List Nat) :=
  if i < data.length then some (data.set i v) else none

/-! ## SHA-1 (Go `crypto/sha1`, FIPS 180-4) -/

def mask32 : Nat := 2 ^ 32

def rotl32 (x k : Nat) : Nat := ((x <<< k) ||| (x >>> (32 - k))) % mask32

def not32 (x : Nat) : Nat := (mask32 - 1) ^^^ x

/-- Big-endian bytes of a value, `k` bytes wide. -/
def beBytes : Nat → Nat → List Nat
  | 0, _ => []
  | k + 1, v => (v / 256 ^ k) % 256 :: beBytes k v

/-- Message padding: `0x80`, zeros up to 56 mod 64, then the bit length as 8 bytes. -/
def sha1Pad (msg : List Nat) : List Nat :=
  msg ++ [0x80] ++ List.replicate ((119 - msg.length % 64) % 64) 0
    ++ beBytes 8 ((8 * msg.length) % 2 ^ 64)

/-- Big-endian 32-bit words of a byte list. -/
def beWords : List Nat → List Nat
  | b0 :: b1 :: b2 :: b3 :: rest => (((b0 * 256 + b1) * 256 + b2) * 256 + b3) :: beWords rest
  | _ => []

/-- Message schedule: extends the 16 block words by `k` further words. -/
def sha1Schedule : Nat → List Nat → List Nat
  | 0, w => w
  | k + 1, w =>
    let i := w.length
    sha1Schedule k (w ++ [rotl32 (w.getD (i - 3) 0 ^^^ w.getD (i - 8) 0
      ^^^ w.getD (i - 14) 0 ^^^ w.getD (i - 16) 0) 1])

structure Sha1State where
  h0 : Nat
  h1 : Nat
  h2 : Nat
  h3 : Nat
  h4 : Nat
  deriving DecidableEq, Repr

def sha1Init : Sha1State := ⟨0x67452301, 0xEFCDAB89, 0x98BADCFE, 0x10325476, 0xC3D2E1F0⟩

def sha1F (t b c d : Nat) : Nat :=
  if t < 20 then (b &&& c) ||| (not32 b &&& d)
  else if t < 40 then b ^^^ c ^^^ d
  else if t < 60 then (b &&& c) ||| (b &&& d) ||| (c &&& d)
  else b ^^^ c ^^^ d

def sha1K (t : Nat) : Nat :=
  if t < 20 then 0x5A827999
  else if t < 40 then 0x6ED9EBA1
  else if t < 60 then 0x8F1BBCDC
  else 0xCA62C1D6

def sha1Round (w : List Nat) (s : Sha1State) (t : Nat) : Sha1State :=
  ⟨(rotl32 s.h0 5 + sha1F t s.h1 s.h2 s.h3 + s.h4 + sha1K t + w.getD t 0) % mask32,
   s.h0, rotl32 s.h1 30, s.h2, s.h3⟩

def sha1Block (s : Sha1State) (block : List Nat) : Sha1State :=
  let w := sha1Schedule 64 (beWords block)
  let r := (List.range 80).foldl (sha1Round w) s
  ⟨(s.h0 + r.h0) % mask32, (s.h1 + r.h1) % mask32, (s.h2 + r.h2) % mask32,
   (s.h3 + r.h3) % mask32, (s.h4 + r.h4) % mask32⟩

/-- Go `sha1.New(); Write(msg); Sum(nil)`: the 20-byte digest. -/
def sha1 (msg : List Nat) : List Nat :=
  let p := sha1Pad msg
  let s := (List.range (p.length / 64)).foldl
    (fun s i => sha1Block s ((p.drop (64 * i)).take 64)) sha1Init
  beBytes 4 s.h0 ++ beBytes 4 s.h1 ++ beBytes 4 s.h2 ++ beBytes 4 s.h3 ++ beBytes 4 s.h4

/-! ## The proxy (`mysqlproxy.go`) -/

def comQuery : Nat := 3

def clientSSL : Nat := 0x00000800

/-- The credential part of `Config`; strings are their byte sequences. -/
structure Config where
  MySQLUser : List Nat
  MySQLPassword : List Nat
  deriving DecidableEq, Repr

def serverHandshake : Nat := 0

def clientAuth : Nat := 1

def established : Nat := 2

def stopped : Nat := 3

/-- The session part of `MysqlProxy` (the two connections are not modelled). -/
structure MysqlProxy where
  config : Config
  state : Nat
  cipher : List Nat
  deriving DecidableEq, Repr

/-- What one filter call leaves behind: the session, the buffer, the returned
length and the query texts handed to the logger. -/
structure Filtered where
  proxy : MysqlProxy
  data : List Nat
  n : Nat
  logged : List (List Nat)
  deriving DecidableEq, Repr

/-- Go `copy(data[off:], src)` with the bound check of `data[off:]`: the buffer
afterwards and the number of bytes copied. -/
def copyTo (data : List Nat) (off : Nat) (src : List Nat) : Option (List Nat × Nat) :=
  if off ≤ data.length then some (copyAt data off src, copyLen data off src) else none

/-- Go `binary.LittleEndian.Uint16(data[pos:pos+2])`. -/
def uint16At (data : List Nat) (pos : Nat) : Option Nat :=
  (slice data pos (pos + 2)).map
    (fun b => (b.getD 0 0 ||| (b.getD 1 0 <<< 8)) % 2 ^ 16)

/-- Go `binary.LittleEndian.PutUint16(data[pos:pos+2], v)`. -/
def putUint16At (data : List Nat) (pos v : Nat) : Option (List Nat) :=
  (slice data pos (pos + 2)).map
    (fun _ => (data.set pos (v % 256)).set (pos + 1) ((v >>> 8) % 256))

/-- The native-password scramble.  `Sum` returns 20 bytes for `stage1` and for
the outer hash, so the indices of the final loop are always in range. -/
def scramblePassword (scramble password : List Nat) : List Nat :=
  if password.length = 0 then []
  else
    let stage1 := sha1 password
    let hash := sha1 stage1
    let scramble := sha1 (scramble ++ hash)
    (List.range scramble.length).map (fun i => scramble.getD i 0 ^^^ stage1.getD i 0)

def MysqlProxy.Stop (p : MysqlProxy) : MysqlProxy :=
  if p.state ≠ stopped then { p with state := stopped } else p

def MysqlProxy.readHandshake (p : MysqlProxy) (data : List Nat) (n : Nat) :
    Option Filtered := do
  let b := List.replicate 20 0
  let rest ← sliceFrom data 5
  match indexByte rest 0x00 with
  | none => pure ⟨p, data, n, []⟩
  | some pos =>
    let pos := pos + 10
    let src ← slice data pos (pos + 8)
    let b := copyAt b 0 src
    let pos := pos + 9
    let serverCaps ← uint16At data pos
    let data ← putUint16At data pos (serverCaps &&& (2 ^ 16 - 1 - clientSSL))
    let pos := pos + (2 + 1 + 2 + 13)
    if n > pos then
      let src ← slice data pos (pos + 12)
      let b := copyAt b 8 src
      pure ⟨{ p with cipher := b, state := clientAuth }, data, n, []⟩
    else
      pure ⟨{ p with cipher := b.take 8, state := clientAuth }, data, n, []⟩

def MysqlProxy.readAuth (p : MysqlProxy) (data : List Nat) (n : Nat) :
    Option Filtered :=
  if n ≤ 36 then some ⟨p, data, n, []⟩
  else if p.config.MySQLUser.length = 0 then
    some ⟨{ p with state := established }, data, n, []⟩
  else do
    let rest ← sliceFrom data 36
    match indexByte rest 0x00 with
    | none => pure ⟨p, data, n, []⟩
    | some pos =>
      let pos := pos + 37
      let oldScrambleLen ← data[pos]?
      let pos := pos + 1
      let posEnd := pos + oldScrambleLen
      let scramble := scramblePassword p.cipher p.config.MySQLPassword
      let src ← slice data posEnd n
      let (data, _) ← copyTo data n src
      let pos := 36
      let (data, k) ← copyTo data pos p.config.MySQLUser
      let pos := pos + k
      let data ← store data pos 0x00
      let pos := pos + 1
      let data ← store data pos (scramble.length % 256)
      let pos := pos + 1
      let (data, k) ← copyTo data pos scramble
      let pos := pos + k
      let src ← slice data n (2 * n - posEnd)
      let (data, _) ← copyTo data pos src
      let n := n + pos - posEnd
      let pkgLen := n - 4
      let data ← store data 0 (pkgLen % 256)
      let data ← store data 1 ((pkgLen >>> 8) % 256)
      let data ← store data 2 ((pkgLen >>> 16) % 256)
      pure ⟨{ p with state := established }, data, n, []⟩

def MysqlProxy.readClientPackage (p : MysqlProxy) (data : List Nat) (n : Nat) :
    Option Filtered := do
  let op ← data[4]?
  if op = comQuery then
    let query ← slice data 5 n
    pure ⟨p, data, n, [query]⟩
  else
    pure ⟨p, data, n, []⟩

def MysqlProxy.serverFilter (p : MysqlProxy) (data : List Nat) (n : Nat) :
    Option Filtered :=
  if p.state = serverHandshake then p.readHandshake data n
  else some ⟨p, data, n, []⟩

def MysqlProxy.clientFilter (p : MysqlProxy) (data : List Nat) (n : Nat) :
    Option Filtered :=
  if p.state = clientAuth then p.readAuth data n
  else if p.state = established then p.readClientPackage data n
  else some ⟨p, data, n, []⟩

/-! ## Specification vocabulary -/

/-- The first `0x00` of `data` at or after index `start` is at index `z`. -/
def FirstZeroAt (data : List Nat) (start z : Nat) : Prop :=
  start ≤ z ∧ data[z]? = some 0 ∧ ∀ i, i < z → start ≤ i → data[i]? ≠ some 0

/-- One step of a session: a packet through `serverFilter`, a packet through
`clientFilter` (a call that fails at run time is no step), or `Stop`. -/
inductive Step : MysqlProxy → MysqlProxy → Prop
  | server (p : MysqlProxy) (data : List Nat) (n : Nat) (out : Filtered) :
      p.serverFilter data n = some out → Step p out.proxy
  | client (p : MysqlProxy) (data : List Nat) (n : Nat) (out : Filtered) :
      p.clientFilter data n = some out → Step p out.proxy
  | stop (p : MysqlProxy) : Step p p.Stop

/-- Sessions reachable from a session `p0` by steps. -/
inductive Reachable (p0 : MysqlProxy) : MysqlProxy → Prop
  | init : Reachable p0 p0
  | step (p q : MysqlProxy) : Reachable p0 p → Step p q → Reachable p0 q

/-- The little-endian 16-bit field of `data` at indices `pos`, `pos + 1`. -/
def uint16LE (data : List Nat) (pos : Nat) : Nat :=
  data.getD pos 0 + 256 * data.getD (pos + 1) 0

/-- The value `readHandshake` writes back into the low capability-flags field
of a handshake whose version string ends at index `z`. -/
def clearedCaps (data : List Nat) (z : Nat) : Nat :=
  ((data.getD (z + 14) 0 ||| (data.getD (z + 15) 0 <<< 8)) % 2 ^ 16) &&& (2 ^ 16 - 1 - clientSSL)

/-- The buffer after `readHandshake` rewrote the low capability-flags field. -/
def withClearedCaps (data : List Nat) (z : Nat) : List Nat :=
  (data.set (z + 14) (clearedCaps data z % 256)).set (z + 15) ((clearedCaps data z >>> 8) % 256)

/-- The buffer of `readAuth` (no bound check failing) once the trailing bytes
are saved at `data[n ..]` and the new fields are written from index 36: `n` is
the logical length, `e` the end of the original auth response. -/
def written (data : List Nat) (n e : Nat) (user scramble : List Nat) : List Nat :=
  let d1 := copyAt data n ((data.take n).drop e)
  let d2 := copyAt d1 36 user
  let d3 := d2.set (36 + user.length) 0x00
  let d4 := d3.set (36 + user.length + 1) (scramble.length % 256)
  copyAt d4 (36 + user.length + 1 + 1) scramble

/-- The buffer of `readAuth` after the saved bytes `data[n .. 2n-e)` are copied
back behind the new fields, before the length header is rewritten. -/
def spliced (data : List Nat) (n e : Nat) (user scramble : List Nat) : List Nat :=
  copyAt (written data n e user scramble) (36 + user.length + 1 + 1 + scramble.length)
    (((written data n e user scramble).take (2 * n - e)).drop n)

/-- The buffer after `readAuth` rewrote the packet; `m` is the new logical length. -/
def rewritten (data : List Nat) (n e : Nat) (user scramble : List Nat) (m : Nat) : List Nat :=
  (((spliced data n e user scramble).set 0 ((m - 4) % 256)).set 1 (((m - 4) >>> 8) % 256)).set 2
    (((m - 4) >>> 16) % 256)


/-- The logical length of an auth packet after the rewrite: header and fixed
region, override username, terminator, length byte, scramble, trailing bytes;
`n` is the old logical length, `e` the end of the original auth response. -/
def authLength (user scramble : List Nat) (n e : Nat) : Nat :=
  36 + user.length + 2 + scramble.length + (n - e)

/-- Bytewise XOR of two byte strings (up to the shorter one). -/
def xorBytes (a b : List Nat) : List Nat :=
  List.zipWith (fun x y => x ^^^ y) a b

/-- The arguments of the call `scramblePassword(p.cipher, password)` in
`readAuth`, when control reaches it: `n > 36`, an override username is
configured, the username terminator is found and `data[pos]` is in range. -/
def MysqlProxy.scrambleCall (p : MysqlProxy) (data : List Nat) (n : Nat) :
    Option (List Nat × List Nat) :=
  if n ≤ 36 then none
  else if p.config.MySQLUser.length = 0 then none
  else do
    let rest ← sliceFrom data 36
    match indexByte rest 0x00 with
    | none => none
    | some pos =>
      let pos := pos + 37
      let _ ← data[pos]?
      pure (p.cipher, p.config.MySQLPassword)

/-- Sessions reachable from `p0` by `serverFilter` and `clientFilter` steps. -/
inductive FilterReachable (p0 : MysqlProxy) : MysqlProxy → Prop
  | init : FilterReachable p0 p0
  | server (p : MysqlProxy) (data : List Nat) (n : Nat) (out : Filtered) :
      FilterReachable p0 p → p.serverFilter data n = some out → FilterReachable p0 out.proxy
  | client (p : MysqlProxy) (data : List Nat) (n : Nat) (out : Filtered) :
      FilterReachable p0 p → p.clientFilter data n = some out → FilterReachable p0 out.proxy

/-- A sample session: override user "bob", password "secret", phase
`serverHandshake`, no challenge yet. -/
def sampleProxy : MysqlProxy :=
  ⟨⟨[98, 111, 98], [115, 101, 99, 114, 101, 116]⟩, serverHandshake, []⟩

/-- A sample full handshake of 51 bytes (version string "5", terminator at
index 6, first fragment 1..8, low capability flags `0xFFFF`, second fragment
9..20) in a buffer of 64 bytes. -/
def sampleHandshake : List Nat :=
  [47, 0, 0, 0, 10, 53, 0, 9, 9, 9, 9, 1, 2, 3, 4, 5, 6, 7, 8, 0, 255, 255, 8, 2, 0, 15, 128,
    21, 0, 0, 0, 0, 0, 0, 0, 0, 0, 0, 9, 10, 11, 12, 13, 14, 15, 16, 17, 18, 19, 20, 0]
    ++ List.replicate 13 0

/-- A sample auth packet of 70 bytes (username "alice", a 20-byte response,
trailing "dbname\0") in a buffer of 138 bytes. -/
def sampleAuth : List Nat :=
  [66, 0, 0, 1] ++ List.replicate 32 0 ++ [97, 108, 105, 99, 101, 0, 20]
    ++ List.replicate 20 170 ++ [100, 98, 110, 97, 109, 101, 0] ++ List.replicate 68 0

/-- A sample `COM_QUERY` packet of 13 bytes carrying "SELECT 1", in a buffer of
16 bytes. -/
def sampleQuery : List Nat :=
  [9, 0, 0, 0, 3, 83, 69, 76, 69, 67, 84, 32, 49, 0, 0, 0]

/-! ## Lemmas on the Go primitives -/

set_option maxRecDepth 100000

theorem length_beBytes (k v : Nat) : (beBytes k v).length = k := by
  induction k with
  | zero => rfl
  | succ k ih => simp [beBytes, ih]

theorem length_sha1 (msg : List Nat) : (sha1 msg).length = 20 := by
  simp [sha1, length_beBytes]

/-- The FIPS 180 test vector: SHA-1 of "abc". -/
theorem sha1_abc : sha1 [97, 98, 99]
    = [0xa9, 0x99, 0x3e, 0x36, 0x47, 0x06, 0x81, 0x6a, 0xba, 0x3e,
       0x25, 0x71, 0x78, 0x50, 0xc2, 0x6c, 0x9c, 0xd0, 0xd8, 0x9d] := by
  decide

/-- SHA-1 of the empty message. -/
theorem sha1_nil : sha1 []
    = [0xda, 0x39, 0xa3, 0xee, 0x5e, 0x6b, 0x4b, 0x0d, 0x32, 0x55,
       0xbf, 0xef, 0x95, 0x60, 0x18, 0x90, 0xaf, 0xd8, 0x07, 0x09] := by
  decide

theorem length_copyAt (data : List Nat) (off : Nat) (src : List Nat) :
    (copyAt data off src).length = data.length := by
  simp only [copyAt, copyLen, List.length_append, List.length_take, List.length_drop]
  omega

theorem getElem?_copyAt (data : List Nat) (off : Nat) (src : List Nat) (i : Nat) :
    (copyAt data off src)[i]? =
      if off ≤ i ∧ i < off + copyLen data off src then src[i - off]? else data[i]? := by
  have hk : copyLen data off src ≤ src.length := by simp [copyLen]
  have hk2 : copyLen data off src ≤ data.length - off := by simp [copyLen]
  unfold copyAt
  generalize copyLen data off src = k at *
  by_cases h1 : i < off
  · have : ¬ (off ≤ i ∧ i < off + k) := by omega
    rw [if_neg this, List.append_assoc]
    by_cases h0 : i < data.length
    · rw [List.getElem?_append_left (by simp; omega)]
      simp [List.getElem?_take, h1]
    · have hk0 : k = 0 := by omega
      subst hk0
      simp [List.take_of_length_le (show data.length ≤ off by omega),
        List.drop_of_length_le (show data.length ≤ off by omega)]
  · by_cases h2 : i < off + k
    · have h : off ≤ data.length := by omega
      rw [if_pos ⟨by omega, h2⟩, List.append_assoc,
        List.getElem?_append_right (by simp; omega),
        List.getElem?_append_left (by simp; omega)]
      simp only [List.length_take, List.getElem?_take]
      rw [Nat.min_eq_left h]
      rw [if_pos (by omega)]
    · have : ¬ (off ≤ i ∧ i < off + k) := by omega
      rw [if_neg this]
      by_cases h : off ≤ data.length
      · rw [List.getElem?_append_right (by simp; omega)]
        simp only [List.length_append, List.length_take, List.getElem?_drop]
        congr 1
        omega
      · have hk0 : k = 0 := by omega
        subst hk0
        simp [List.take_of_length_le (show data.length ≤ off by omega),
          List.drop_of_length_le (show data.length ≤ off by omega)]

theorem indexByte_eq_some (l : List Nat) (c k : Nat) (hk : l[k]? = some c)
    (hlt : ∀ i, i < k → l[i]? ≠ some c) : indexByte l c = some k := by
  induction l generalizing k with
  | nil => simp at hk
  | cons b bs ih =>
    cases k with
    | zero =>
      simp at hk
      simp [indexByte, hk]
    | succ k =>
      have h0 : b ≠ c := by
        have := hlt 0 (by omega)
        simpa using this
      have := ih k (by simpa using hk) (fun i hi => by
        have := hlt (i + 1) (by omega)
        simpa using this)
      simp [indexByte, h0, this]

theorem indexByte_drop_of_firstZero {data : List Nat} {start z : Nat}
    (h : FirstZeroAt data start z) : indexByte (data.drop start) 0 = some (z - start) := by
  obtain ⟨h1, h2, h3⟩ := h
  apply indexByte_eq_some
  · rw [List.getElem?_drop]
    rw [show start + (z - start) = z by omega]
    exact h2
  · intro i hi
    rw [List.getElem?_drop]
    exact h3 _ (by omega) (by omega)

/-! ## Phase bookkeeping of the three packet handlers -/

theorem readHandshake_state (p : MysqlProxy) (data : List Nat) (n : Nat) (out : Filtered)
    (h : p.readHandshake data n = some out) :
    out.proxy.state = p.state ∨ out.proxy.state = clientAuth := by
  unfold MysqlProxy.readHandshake at h
  simp only [Option.bind_eq_bind, Option.pure_def] at h
  rcases Option.bind_eq_some.mp h with ⟨rest, _, h⟩
  split at h
  · simp at h; subst h; simp
  · rcases Option.bind_eq_some.mp h with ⟨_, _, h⟩
    rcases Option.bind_eq_some.mp h with ⟨_, _, h⟩
    rcases Option.bind_eq_some.mp h with ⟨_, _, h⟩
    split at h
    · rcases Option.bind_eq_some.mp h with ⟨_, _, h⟩
      simp at h; subst h; simp
    · simp at h; subst h; simp

theorem readAuth_state (p : MysqlProxy) (data : List Nat) (n : Nat) (out : Filtered)
    (h : p.readAuth data n = some out) :
    out.proxy.state = p.state ∨ out.proxy.state = established := by
  unfold MysqlProxy.readAuth at h
  split at h
  · simp at h; subst h; simp
  · split at h
    · simp at h; subst h; simp
    · simp only [Option.bind_eq_bind, Option.pure_def] at h
      rcases Option.bind_eq_some.mp h with ⟨rest, _, h⟩
      split at h
      · simp at h; subst h; simp
      · rcases Option.bind_eq_some.mp h with ⟨_, _, h⟩
        rcases Option.bind_eq_some.mp h with ⟨_, _, h⟩
        rcases Option.bind_eq_some.mp h with ⟨_, _, h⟩
        rcases Option.bind_eq_some.mp h with ⟨_, _, h⟩
        rcases Option.bind_eq_some.mp h with ⟨_, _, h⟩
        rcases Option.bind_eq_some.mp h with ⟨_, _, h⟩
        rcases Option.bind_eq_some.mp h with ⟨_, _, h⟩
        rcases Option.bind_eq_some.mp h with ⟨_, _, h⟩
        rcases Option.bind_eq_some.mp h with ⟨_, _, h⟩
        rcases Option.bind_eq_some.mp h with ⟨_, _, h⟩
        rcases Option.bind_eq_some.mp h with ⟨_, _, h⟩
        rcases Option.bind_eq_some.mp h with ⟨_, _, h⟩
        simp at h; subst h; simp

theorem readClientPackage_proxy (p : MysqlProxy) (data : List Nat) (n : Nat) (out : Filtered)
    (h : p.readClientPackage data n = some out) : out.proxy = p := by
  unfold MysqlProxy.readClientPackage at h
  simp only [Option.bind_eq_bind, Option.pure_def] at h
  rcases Option.bind_eq_some.mp h with ⟨_, _, h⟩
  split at h
  · rcases Option.bind_eq_some.mp h with ⟨_, _, h⟩
    simp at h; subst h; rfl
  · simp at h; subst h; rfl

theorem step_state {p q : MysqlProxy} (h : Step p q) (hp : p.state ≤ stopped) :
    p.state ≤ q.state ∧ q.state ≤ stopped ∧ (p.state = stopped → q = p) := by
  cases h with
  | server data n out h =>
    unfold MysqlProxy.serverFilter at h
    split at h
    · next h0 =>
      rcases readHandshake_state p data n out h with h1 | h1
      · simp [h1, hp, h0, stopped, serverHandshake]
      · simp [h1, h0, stopped, serverHandshake, clientAuth]
    · simp at h; subst h; simp [hp]
  | client data n out h =>
    unfold MysqlProxy.clientFilter at h
    split at h
    · next h0 =>
      rcases readAuth_state p data n out h with h1 | h1
      · simp [h1, hp, h0, stopped, clientAuth]
      · simp [h1, h0, stopped, established, clientAuth]
    · split at h
      · have := readClientPackage_proxy p data n out h
        simp [this, hp]
      · simp at h; subst h; simp [hp]
  | stop =>
    unfold MysqlProxy.Stop
    split
    · next h0 => exact ⟨hp, le_refl _, fun h1 => absurd h1 h0⟩
    · simp [hp]

theorem reachable_state_le {p0 p : MysqlProxy} (h0 : p0.state = serverHandshake)
    (h : Reachable p0 p) : p.state ≤ stopped := by
  induction h with
  | init => simp [h0, serverHandshake, stopped]
  | step p q _ hs ih => exact (step_state hs ih).2.1


/-! ## The handshake mutator -/

theorem drop_take_set_of_lt (l : List Nat) (i v lo hi : Nat) (h : i < lo) :
    ((l.set i v).take hi).drop lo = (l.take hi).drop lo := by
  apply List.ext_getElem?
  intro j
  simp only [List.getElem?_drop, List.getElem?_take, List.getElem?_set]
  split
  · rw [if_neg (by omega)]
  · rfl

theorem length_drop_take (l : List Nat) (lo hi : Nat) (h : hi ≤ l.length) :
    ((l.take hi).drop lo).length = hi - lo := by
  simp [Nat.min_eq_left h]

theorem copyAt_zero (b src : List Nat) (h : src.length ≤ b.length) :
    copyAt b 0 src = src ++ b.drop src.length := by
  simp [copyAt, copyLen, Nat.min_eq_right h]

theorem copyAt_append (a b src : List Nat) (h : src.length = b.length) :
    copyAt (a ++ b) a.length src = a ++ src := by
  simp [copyAt, copyLen, h]

theorem slice_eq_some (data : List Nat) (lo hi : Nat) (h1 : lo ≤ hi) (h2 : hi ≤ data.length) :
    slice data lo hi = some ((data.take hi).drop lo) := by
  simp [slice, h1, h2]

theorem readHandshake_eq (p : MysqlProxy) (data : List Nat) (n z : Nat)
    (hz : FirstZeroAt data 5 z) (hlen : z + 16 ≤ data.length)
    (hfull : z + 32 < n → z + 44 ≤ data.length) :
    p.readHandshake data n = some
      ⟨{ p with
          cipher := if z + 32 < n then
              (data.take (z + 13)).drop (z + 5) ++ (data.take (z + 44)).drop (z + 32)
            else (data.take (z + 13)).drop (z + 5),
          state := clientAuth },
        withClearedCaps data z, n, []⟩ := by
  have hidx := indexByte_drop_of_firstZero hz
  obtain ⟨k, rfl⟩ : ∃ k, z = 5 + k := ⟨z - 5, by have := hz.1; omega⟩
  simp only [Nat.add_sub_cancel_left] at hidx
  unfold MysqlProxy.readHandshake
  have h5 : sliceFrom data 5 = some (data.drop 5) := by simp [sliceFrom]; omega
  simp only [Option.bind_eq_bind, Option.pure_def, h5, Option.some_bind, hidx]
  rw [slice_eq_some data (k + 10) (k + 10 + 8) (by omega) (by omega)]
  have hu : uint16At data (k + 10 + 9)
      = some ((data.getD (5 + k + 14) 0 ||| (data.getD (5 + k + 15) 0 <<< 8)) % 2 ^ 16) := by
    unfold uint16At
    rw [slice_eq_some data _ _ (by omega) (by omega)]
    simp only [Option.map_some', List.getD_eq_getElem?_getD, List.getElem?_drop, List.getElem?_take]
    rw [if_pos (by omega), if_pos (by omega), show k + 10 + 9 + 0 = 5 + k + 14 by omega,
      show 5 + k + 14 + 1 = 5 + k + 15 by omega]
  simp only [Option.some_bind, hu]
  have hput : ∀ v, putUint16At data (k + 10 + 9) v
      = some ((data.set (5 + k + 14) (v % 256)).set (5 + k + 15) ((v >>> 8) % 256)) := by
    intro v
    unfold putUint16At
    rw [slice_eq_some data _ _ (by omega) (by omega)]
    simp only [Option.map_some']
    congr 2
    · congr 1; omega
    · omega
  simp only [hput, Option.some_bind]
  have hF1 : ((data.take (k + 10 + 8)).drop (k + 10)).length = 8 := by
    rw [length_drop_take _ _ _ (by omega)]; omega
  have hb : copyAt (List.replicate 20 0) 0 ((data.take (k + 10 + 8)).drop (k + 10))
      = (data.take (k + 10 + 8)).drop (k + 10) ++ List.replicate 12 0 := by
    rw [copyAt_zero _ _ (by simp [hF1]), hF1]
    simp
  rw [hb]
  have e1 : k + 10 + 8 = 5 + k + 13 := by omega
  have e2 : k + 10 = 5 + k + 5 := by omega
  have e3 : k + 10 + 9 + (2 + 1 + 2 + 13) = 5 + k + 32 := by omega
  have e4 : 5 + k + 32 + 12 = 5 + k + 44 := by omega
  rw [e3, e4]
  rw [e1, e2] at hF1 ⊢
  by_cases hn : 5 + k + 32 < n
  · have h44 := hfull hn
    rw [if_pos hn, if_pos hn, slice_eq_some _ _ _ (by omega) (by simp; omega)]
    rw [drop_take_set_of_lt _ _ _ _ _ (by omega), drop_take_set_of_lt _ _ _ _ _ (by omega)]
    have hF2 : ((data.take (5 + k + 44)).drop (5 + k + 32)).length = 12 := by
      rw [length_drop_take _ _ _ (by omega)]; omega
    have := copyAt_append ((data.take (5 + k + 13)).drop (5 + k + 5)) (List.replicate 12 0)
      ((data.take (5 + k + 44)).drop (5 + k + 32)) (by simp [hF2])
    rw [hF1] at this
    simp only [Option.some_bind, this]
    rfl
  · rw [if_neg hn, if_neg hn]
    have : List.take 8 ((data.take (5 + k + 13)).drop (5 + k + 5) ++ List.replicate 12 0)
        = (data.take (5 + k + 13)).drop (5 + k + 5) := by
      rw [List.take_append_of_le_length (by omega), List.take_of_length_le (by omega)]
    rw [this]
    rfl

theorem testBit_63487 (i : Nat) : Nat.testBit 63487 i = (decide (i < 16) && decide (i ≠ 11)) := by
  by_cases h : i < 16
  · interval_cases i <;> rfl
  · have : (63487 : Nat) < 2 ^ i := lt_of_lt_of_le (by norm_num : (63487 : Nat) < 2 ^ 16)
      (Nat.pow_le_pow_right (by norm_num) (by omega))
    simp [Nat.testBit_lt_two_pow this, h]

theorem testBit_byte (b i : Nat) (hb : b < 256) (hi : 8 ≤ i) : b.testBit i = false := by
  apply Nat.testBit_lt_two_pow
  exact lt_of_lt_of_le hb (by
    have : 2 ^ 8 ≤ 2 ^ i := Nat.pow_le_pow_right (by norm_num) hi
    simpa using this)

theorem add_shift_eq_or (lo hi : Nat) (hlo : lo < 256) :
    lo + 256 * hi = (hi <<< 8) ||| lo := by
  rw [Nat.shiftLeft_eq, Nat.mul_comm hi, ← Nat.mul_add_lt_is_or (by simpa using hlo)]
  omega

theorem cleared_testBit (lo hi i : Nat) (hlo : lo < 256) (hhi : hi < 256) :
    ((((lo ||| (hi <<< 8)) % 2 ^ 16) &&& (2 ^ 16 - 1 - clientSSL))).testBit i
      = ((lo + 256 * hi).testBit i && decide (i ≠ 11)) := by
  rw [add_shift_eq_or lo hi hlo]
  have hc : 2 ^ 16 - 1 - clientSSL = 63487 := by simp [clientSSL]
  rw [hc]
  simp only [Nat.testBit_and, Nat.testBit_mod_two_pow, Nat.testBit_or, Nat.testBit_shiftLeft,
    testBit_63487]
  by_cases h8 : 8 ≤ i
  · by_cases h16 : i < 16
    · simp [h8, h16, testBit_byte lo i hlo h8]
    · have : hi.testBit (i - 8) = false := testBit_byte hi (i - 8) hhi (by omega)
      simp [h8, h16, testBit_byte lo i hlo h8, this]
  · have : i < 16 := by omega
    have h11 : i ≠ 11 := by omega
    simp [h8, this, h11]

theorem cleared_lo (lo hi : Nat) (hlo : lo < 256) (hhi : hi < 256) :
    ((((lo ||| (hi <<< 8)) % 2 ^ 16) &&& (2 ^ 16 - 1 - clientSSL))) % 256 = lo := by
  apply Nat.eq_of_testBit_eq
  intro i
  rw [show (256 : Nat) = 2 ^ 8 by norm_num, Nat.testBit_mod_two_pow, cleared_testBit lo hi i hlo hhi]
  rw [add_shift_eq_or lo hi hlo]
  by_cases h8 : 8 ≤ i
  · simp [testBit_byte lo i hlo h8]; omega
  · have h11 : i ≠ 11 := by omega
    simp [Nat.testBit_or, Nat.testBit_shiftLeft, h8, h11]; omega

theorem cleared_hi (lo hi : Nat) (hlo : lo < 256) (hhi : hi < 256) :
    (((((lo ||| (hi <<< 8)) % 2 ^ 16) &&& (2 ^ 16 - 1 - clientSSL))) >>> 8) % 256 = hi &&& 247 := by
  apply Nat.eq_of_testBit_eq
  intro i
  rw [show (256 : Nat) = 2 ^ 8 by norm_num, Nat.testBit_mod_two_pow, Nat.testBit_shiftRight,
    cleared_testBit lo hi _ hlo hhi]
  rw [add_shift_eq_or lo hi hlo]
  have h247 : Nat.testBit 247 i = (decide (i < 8) && decide (i ≠ 3)) := by
    by_cases h : i < 8
    · interval_cases i <;> rfl
    · have : (247 : Nat) < 2 ^ i := lt_of_lt_of_le (by norm_num : (247 : Nat) < 2 ^ 8)
        (Nat.pow_le_pow_right (by norm_num) (by omega))
      simp [Nat.testBit_lt_two_pow this, h]
  simp only [Nat.testBit_and, Nat.testBit_or, Nat.testBit_shiftLeft, h247]
  have : lo.testBit (8 + i) = false := testBit_byte lo _ hlo (by omega)
  by_cases h8 : i < 8
  · by_cases h3 : i = 3
    · simp [h3]
    · have : ¬ (8 + i = 11) := by omega
      simp [h8, h3, this, testBit_byte lo (8 + i) hlo (by omega)]
  · simp [h8]

/-! ## The auth mutator -/

theorem copyTo_eq_some (data : List Nat) (off : Nat) (src : List Nat)
    (h : off + src.length ≤ data.length) :
    copyTo data off src = some (copyAt data off src, src.length) := by
  have : copyLen data off src = src.length := by simp [copyLen]; omega
  simp [copyTo, this]; omega

theorem store_eq_some (data : List Nat) (i v : Nat) (h : i < data.length) :
    store data i v = some (data.set i v) := by
  simp [store, h]

theorem readAuth_eq (p : MysqlProxy) (data : List Nat) (n u L : Nat)
    (hn : 36 < n) (hU : p.config.MySQLUser ≠ [])
    (hz : FirstZeroAt data 36 u) (hL : data[u + 1]? = some L) (he : u + 2 + L ≤ n)
    (hcap : n + (36 + p.config.MySQLUser.length + 2
        + (scramblePassword p.cipher p.config.MySQLPassword).length + (n - (u + 2 + L)))
        ≤ data.length) :
    p.readAuth data n = some
      ⟨{ p with state := established },
        rewritten data n (u + 2 + L) p.config.MySQLUser
          (scramblePassword p.cipher p.config.MySQLPassword)
          (36 + p.config.MySQLUser.length + 2
            + (scramblePassword p.cipher p.config.MySQLPassword).length + (n - (u + 2 + L))),
        36 + p.config.MySQLUser.length + 2
          + (scramblePassword p.cipher p.config.MySQLPassword).length + (n - (u + 2 + L)),
        []⟩ := by
  have hidx := indexByte_drop_of_firstZero hz
  obtain ⟨k, rfl⟩ : ∃ k, u = 36 + k := ⟨u - 36, by have := hz.1; omega⟩
  simp only [Nat.add_sub_cancel_left] at hidx
  generalize hs : scramblePassword p.cipher p.config.MySQLPassword = s at *
  generalize hUU : p.config.MySQLUser = U at *
  have hUlen : U.length ≠ 0 := by simpa using hU
  unfold MysqlProxy.readAuth
  rw [if_neg (by omega), hUU, if_neg hUlen]
  have h36 : sliceFrom data 36 = some (data.drop 36) := by simp [sliceFrom]; omega
  have hL' : data[k + 37]? = some L := by rw [← hL]; congr 1; omega
  simp only [Option.bind_eq_bind, Option.pure_def, h36, Option.some_bind, hidx, hL', hs]
  have e1 : k + 37 + 1 + L = 36 + k + 2 + L := by omega
  rw [e1]
  generalize 36 + k + 2 + L = e at *
  rw [slice_eq_some data e n he (by omega)]
  simp only [Option.some_bind]
  rw [copyTo_eq_some data n _ (by rw [length_drop_take _ _ _ (by omega)]; omega)]
  simp only [Option.some_bind, rewritten, spliced, written]
  have hd1 : (copyAt data n ((data.take n).drop e)).length = data.length :=
    length_copyAt _ _ _
  generalize copyAt data n ((data.take n).drop e) = d1 at *
  rw [copyTo_eq_some d1 36 U (by omega)]
  simp only [Option.some_bind]
  have hd2 : (copyAt d1 36 U).length = data.length := by
    rw [length_copyAt _ _ _]; exact hd1
  generalize copyAt d1 36 U = d2 at *
  rw [store_eq_some d2 _ _ (by omega)]
  simp only [Option.some_bind]
  have hd3 : (d2.set (36 + U.length) 0).length = data.length := by simpa using hd2
  generalize d2.set (36 + U.length) 0 = d3 at *
  rw [store_eq_some d3 _ _ (by omega)]
  simp only [Option.some_bind]
  have hd4 : (d3.set (36 + U.length + 1) (s.length % 256)).length = data.length := by
    simpa using hd3
  generalize d3.set (36 + U.length + 1) (s.length % 256) = d4 at *
  rw [copyTo_eq_some d4 _ s (by omega)]
  simp only [Option.some_bind]
  have hd5 : (copyAt d4 (36 + U.length + 1 + 1) s).length = data.length := by
    rw [length_copyAt _ _ _]; exact hd4
  generalize copyAt d4 (36 + U.length + 1 + 1) s = d5 at *
  rw [slice_eq_some d5 n (2 * n - e) (by omega) (by omega)]
  simp only [Option.some_bind]
  rw [copyTo_eq_some d5 _ _ (by rw [length_drop_take _ _ _ (by omega)]; omega)]
  simp only [Option.some_bind]
  have hd6 : (copyAt d5 (36 + U.length + 1 + 1 + s.length) ((d5.take (2 * n - e)).drop n)).length
      = data.length := by
    rw [length_copyAt _ _ _]; exact hd5
  generalize copyAt d5 (36 + U.length + 1 + 1 + s.length) ((d5.take (2 * n - e)).drop n) = d6 at *
  have en : n + (36 + U.length + 1 + 1 + s.length) - e = 36 + U.length + 2 + s.length + (n - e) := by
    omega
  rw [en]
  rw [store_eq_some d6 _ _ (by omega)]
  simp only [Option.some_bind]
  rw [store_eq_some _ _ _ (by simp; omega)]
  simp only [Option.some_bind]
  rw [store_eq_some _ _ _ (by simp; omega)]
  simp only [Option.some_bind]

/-! ## The scrambler -/

theorem length_scramblePassword (c p : List Nat) :
    (scramblePassword c p).length = if p = [] then 0 else 20 := by
  unfold scramblePassword
  by_cases hp : p = []
  · simp [hp]
  · have : p.length ≠ 0 := by simpa using hp
    simp [hp, length_sha1]

theorem scramblePassword_nil (c : List Nat) : scramblePassword c [] = [] := by
  simp [scramblePassword]

/-- C8 (scrambler reference definition): for a non-empty password the scramble
has exactly 20 bytes, and its `i`-th byte is the `i`-th byte of
`SHA1(c ++ SHA1(SHA1(p)))` XOR the `i`-th byte of `SHA1(p)`, for every `i < 20`;
both digests have 20 bytes, and the value is a function of `(c, p)` alone. -/
theorem scramblePassword_reference (c p : List Nat) (hp : p ≠ []) :
    (scramblePassword c p).length = 20 ∧
    (sha1 (c ++ sha1 (sha1 p))).length = 20 ∧ (sha1 p).length = 20 ∧
    ∀ i, i < 20 → ∃ a b, (sha1 (c ++ sha1 (sha1 p)))[i]? = some a ∧ (sha1 p)[i]? = some b ∧
      (scramblePassword c p)[i]? = some (a ^^^ b) := by
  refine ⟨by simp [length_scramblePassword, hp], length_sha1 _, length_sha1 _, ?_⟩
  intro i hi
  have hpl : p.length ≠ 0 := by simpa using hp
  have hdef : scramblePassword c p = (List.range (sha1 (c ++ sha1 (sha1 p))).length).map
      (fun i => (sha1 (c ++ sha1 (sha1 p))).getD i 0 ^^^ (sha1 p).getD i 0) := by
    unfold scramblePassword
    rw [if_neg hpl]
  rw [hdef]
  have h1 : (sha1 (c ++ sha1 (sha1 p))).length = 20 := length_sha1 _
  have h2 : (sha1 p).length = 20 := length_sha1 _
  generalize sha1 (c ++ sha1 (sha1 p)) = A at *
  generalize sha1 p = B at *
  obtain ⟨a, ha⟩ : ∃ a, A[i]? = some a := by
    cases h : A[i]? with
    | none => rw [List.getElem?_eq_none_iff] at h; omega
    | some a => exact ⟨a, rfl⟩
  obtain ⟨b, hb⟩ : ∃ b, B[i]? = some b := by
    cases h : B[i]? with
    | none => rw [List.getElem?_eq_none_iff] at h; omega
    | some b => exact ⟨b, rfl⟩
  refine ⟨a, b, ha, hb, ?_⟩
  simp only [List.getElem?_map, List.getElem?_range (show i < A.length by omega), Option.map_some',
    List.getD_eq_getElem?_getD, ha, hb, Option.getD_some]

theorem scramblePassword_reference_witness :
    (scramblePassword [1, 2, 3] [112, 119]).length = 20 ∧
    (sha1 ([1, 2, 3] ++ sha1 (sha1 [112, 119]))).length = 20 ∧ (sha1 [112, 119]).length = 20 ∧
    ∀ i, i < 20 → ∃ a b, (sha1 ([1, 2, 3] ++ sha1 (sha1 [112, 119])))[i]? = some a ∧
      (sha1 [112, 119])[i]? = some b ∧
      (scramblePassword [1, 2, 3] [112, 119])[i]? = some (a ^^^ b) :=
  scramblePassword_reference [1, 2, 3] [112, 119] (by decide)

/-- C9 (scrambler on the empty password): for every challenge, of any length,
the scramble of the empty password is empty. -/
theorem scramblePassword_empty (c : List Nat) : scramblePassword c [] = [] := by
  simp [scramblePassword]

/-! ## Dispatch -/

/-- C6 (short-packet pass-through): in phase `clientAuth`, for every buffer,
every configuration and every logical length `n ≤ 36`, `clientFilter` returns
`n`, leaves the buffer and the session unchanged and logs nothing; the phase is
still `clientAuth`, not `established`. -/
theorem clientFilter_short_auth (p : MysqlProxy) (data : List Nat) (n : Nat)
    (hs : p.state = clientAuth) (hn : n ≤ 36) :
    p.clientFilter data n = some ⟨p, data, n, []⟩ ∧ p.state ≠ established := by
  constructor
  · simp [MysqlProxy.clientFilter, MysqlProxy.readAuth, hs, hn]
  · rw [hs]; decide

theorem clientFilter_short_auth_witness :
    (⟨⟨[98, 111, 98], [112, 119]⟩, clientAuth, [1, 2, 3]⟩ : MysqlProxy).clientFilter
        (List.replicate 40 7) 36
      = some ⟨⟨⟨[98, 111, 98], [112, 119]⟩, clientAuth, [1, 2, 3]⟩, List.replicate 40 7, 36, []⟩
    ∧ (⟨⟨[98, 111, 98], [112, 119]⟩, clientAuth, [1, 2, 3]⟩ : MysqlProxy).state ≠ established :=
  clientFilter_short_auth ⟨⟨[98, 111, 98], [112, 119]⟩, clientAuth, [1, 2, 3]⟩
    (List.replicate 40 7) 36 rfl (by decide)

/-- C7 (no-override transparency): in phase `clientAuth` with an empty override
username, for every buffer, every override password and every logical length
`n > 36`, `clientFilter` returns `n`, leaves the buffer, the configuration and
the captured challenge unchanged, logs nothing, and sets the phase to
`established`. -/
theorem clientFilter_no_override (p : MysqlProxy) (data : List Nat) (n : Nat)
    (hs : p.state = clientAuth) (hu : p.config.MySQLUser = []) (hn : 36 < n) :
    p.clientFilter data n
      = some ⟨⟨p.config, established, p.cipher⟩, data, n, []⟩ := by
  have h1 : ¬ n ≤ 36 := by omega
  simp [MysqlProxy.clientFilter, MysqlProxy.readAuth, hs, hu, h1]

theorem clientFilter_no_override_witness :
    (⟨⟨[], [112, 119]⟩, clientAuth, [1, 2, 3]⟩ : MysqlProxy).clientFilter
        (List.replicate 40 0) 37
      = some ⟨⟨⟨[], [112, 119]⟩, established, [1, 2, 3]⟩, List.replicate 40 0, 37, []⟩ :=
  clientFilter_no_override ⟨⟨[], [112, 119]⟩, clientAuth, [1, 2, 3]⟩
    (List.replicate 40 0) 37 rfl rfl (by decide)

/-- C10 (phase monotonicity): the phase ordinals are ordered
`serverHandshake < clientAuth < established < stopped`; in every session
reachable from phase `serverHandshake` the phase is one of these four, no step
(`serverFilter`, `clientFilter` on any buffer and length, or `Stop`) decreases
it, and from `stopped` every step leaves the whole session unchanged. -/
theorem phase_monotone (p0 p q : MysqlProxy) (h0 : p0.state = serverHandshake)
    (hr : Reachable p0 p) (hs : Step p q) :
    (serverHandshake < clientAuth ∧ clientAuth < established ∧ established < stopped) ∧
    p.state ≤ stopped ∧ p.state ≤ q.state ∧ (p.state = stopped → q = p) := by
  have hp := reachable_state_le h0 hr
  have := step_state hs hp
  exact ⟨by decide, hp, this.1, this.2.2⟩

theorem phase_monotone_witness :
    (serverHandshake < clientAuth ∧ clientAuth < established ∧ established < stopped) ∧
    (⟨⟨[], []⟩, serverHandshake, []⟩ : MysqlProxy).state ≤ stopped ∧
    (⟨⟨[], []⟩, serverHandshake, []⟩ : MysqlProxy).state
      ≤ (MysqlProxy.Stop ⟨⟨[], []⟩, serverHandshake, []⟩).state ∧
    ((⟨⟨[], []⟩, serverHandshake, []⟩ : MysqlProxy).state = stopped →
      MysqlProxy.Stop ⟨⟨[], []⟩, serverHandshake, []⟩ = ⟨⟨[], []⟩, serverHandshake, []⟩) :=
  phase_monotone ⟨⟨[], []⟩, serverHandshake, []⟩ ⟨⟨[], []⟩, serverHandshake, []⟩ _ rfl
    Reachable.init (Step.stop _)

/-! ## Claims on the handshake mutator -/

theorem clearedCaps_lt (data : List Nat) (z : Nat) : clearedCaps data z < 2 ^ 16 :=
  lt_of_le_of_lt Nat.and_le_left (Nat.mod_lt _ (by norm_num))

theorem getD_of_getElem? {l : List Nat} {i v : Nat} (h : l[i]? = some v) : l.getD i 0 = v := by
  simp [List.getD_eq_getElem?_getD, h]

theorem uint16LE_withClearedCaps (data : List Nat) (z : Nat) (hlen : z + 16 ≤ data.length) :
    uint16LE (withClearedCaps data z) (z + 14) = clearedCaps data z := by
  have hlt := clearedCaps_lt data z
  have h0 : (withClearedCaps data z)[z + 14]? = some (clearedCaps data z % 256) := by
    unfold withClearedCaps
    rw [List.getElem?_set_ne (by omega), List.getElem?_set_self (by omega)]
  have h1 : (withClearedCaps data z)[z + 14 + 1]? = some ((clearedCaps data z >>> 8) % 256) := by
    unfold withClearedCaps
    rw [List.getElem?_set_self (by simp; omega)]
  unfold uint16LE
  rw [getD_of_getElem? h0, getD_of_getElem? h1, Nat.shiftRight_eq_div_pow]
  omega

/-- C4 (SSL-flag strip is isolated): for a buffer of bytes whose first `0x00`
at or after index 5 is at index `z`, with `z + 44 ≤` the buffer length, and any
logical length `n`, `readHandshake` returns `n`; in the output buffer bit
`0x0800` (bit 11) of the little-endian low capability-flags field at indices
`z+14`, `z+15` is 0 and every other bit of that field is as in the input; the
high capability-flags field at `z+19`, `z+20` and every byte other than the one
at `z+15` are unchanged, and the buffer keeps its length. -/
theorem readHandshake_ssl_strip (p : MysqlProxy) (data : List Nat) (n z : Nat)
    (hb : ∀ b ∈ data, b < 256) (hz : FirstZeroAt data 5 z) (hlen : z + 44 ≤ data.length) :
    ∃ out, p.readHandshake data n = some out ∧ out.n = n ∧
      out.data.length = data.length ∧
      (uint16LE out.data (z + 14)).testBit 11 = false ∧
      uint16LE out.data (z + 14) &&& clientSSL = 0 ∧
      (∀ j, j ≠ 11 →
        (uint16LE out.data (z + 14)).testBit j = (uint16LE data (z + 14)).testBit j) ∧
      uint16LE out.data (z + 19) = uint16LE data (z + 19) ∧
      (∀ i, i ≠ z + 15 → out.data[i]? = data[i]?) := by
  refine ⟨_, readHandshake_eq p data n z hz (by omega) (fun _ => hlen), rfl, ?_, ?_⟩
  · simp [withClearedCaps]
  have hlo : data.getD (z + 14) 0 < 256 := by
    rw [List.getD_eq_getElem _ _ (show z + 14 < data.length by omega)]
    exact hb _ (List.getElem_mem _)
  have hhi : data.getD (z + 15) 0 < 256 := by
    rw [List.getD_eq_getElem _ _ (show z + 15 < data.length by omega)]
    exact hb _ (List.getElem_mem _)
  have hbits : ∀ j, (uint16LE (withClearedCaps data z) (z + 14)).testBit j
      = ((uint16LE data (z + 14)).testBit j && decide (j ≠ 11)) := by
    intro j
    rw [uint16LE_withClearedCaps data z (by omega)]
    exact cleared_testBit _ _ j hlo hhi
  have hframe : ∀ i, i ≠ z + 15 → (withClearedCaps data z)[i]? = data[i]? := by
    intro i hi
    unfold withClearedCaps
    rw [List.getElem?_set_ne (by omega)]
    by_cases h14 : i = z + 14
    · subst h14
      rw [List.getElem?_set_self (by omega)]
      unfold clearedCaps
      rw [cleared_lo _ _ hlo hhi, List.getD_eq_getElem _ _ (show z + 14 < data.length by omega),
        List.getElem?_eq_getElem]
    · rw [List.getElem?_set_ne (by omega)]
  refine ⟨?_, ?_, ?_, ?_, hframe⟩
  · show (uint16LE (withClearedCaps data z) (z + 14)).testBit 11 = false
    rw [hbits]; simp
  · show uint16LE (withClearedCaps data z) (z + 14) &&& clientSSL = 0
    apply Nat.eq_of_testBit_eq
    intro j
    rw [Nat.testBit_and, hbits, show clientSSL = 2 ^ 11 by simp [clientSSL], Nat.testBit_two_pow]
    by_cases h : j = 11
    · simp [h]
    · have : ¬ (11 = j) := fun h1 => h h1.symm
      simp [this]
  · intro j hj
    show (uint16LE (withClearedCaps data z) (z + 14)).testBit j = _
    rw [hbits]; simp [hj]
  · show uint16LE (withClearedCaps data z) (z + 19) = _
    unfold uint16LE
    simp only [List.getD_eq_getElem?_getD]
    rw [hframe _ (by omega), hframe _ (by omega)]

theorem readHandshake_ssl_strip_witness :
    ∃ out, (⟨⟨[], []⟩, serverHandshake, []⟩ : MysqlProxy).readHandshake
        ([74, 0, 0, 0, 10, 53, 0] ++ List.replicate 43 255) 50 = some out ∧ out.n = 50 ∧
      out.data.length = ([74, 0, 0, 0, 10, 53, 0] ++ List.replicate 43 255).length ∧
      (uint16LE out.data (6 + 14)).testBit 11 = false ∧
      uint16LE out.data (6 + 14) &&& clientSSL = 0 ∧
      (∀ j, j ≠ 11 → (uint16LE out.data (6 + 14)).testBit j
        = (uint16LE ([74, 0, 0, 0, 10, 53, 0] ++ List.replicate 43 255) (6 + 14)).testBit j) ∧
      uint16LE out.data (6 + 19)
        = uint16LE ([74, 0, 0, 0, 10, 53, 0] ++ List.replicate 43 255) (6 + 19) ∧
      (∀ i, i ≠ 6 + 15 →
        out.data[i]? = ([74, 0, 0, 0, 10, 53, 0] ++ List.replicate 43 255)[i]?) :=
  readHandshake_ssl_strip ⟨⟨[], []⟩, serverHandshake, []⟩
    ([74, 0, 0, 0, 10, 53, 0] ++ List.replicate 43 255) 50 6
    (by decide) ⟨by decide, by decide, by decide⟩ (by decide)

/-- Challenge extraction where the buffer holds the fields read: for a
handshake packet of logical length `n`
held in the buffer (`n ≤` buffer length) whose version-string terminator, the
first `0x00` at or after index 5, is at index `z`, with first fragment
`F1 = data[z+5 .. z+13)` and second fragment starting at `q = z+32`: if
`n ≥ q + 12` the captured challenge is `F1 ++ data[q .. q+12)`, 20 bytes; if
`n ≤ q` (the buffer holding the fields up to the low capability flags,
`z + 16 ≤` buffer length) the captured challenge is `F1`, 8 bytes. -/
theorem readHandshake_challenge (p : MysqlProxy) (data : List Nat) (n z : Nat)
    (hz : FirstZeroAt data 5 z) (hn : n ≤ data.length) :
    (z + 32 + 12 ≤ n → ∃ out, p.readHandshake data n = some out ∧
      out.proxy.cipher = (data.take (z + 13)).drop (z + 5) ++ (data.take (z + 32 + 12)).drop (z + 32)
      ∧ out.proxy.cipher.length = 20) ∧
    (n ≤ z + 32 → z + 16 ≤ data.length → ∃ out, p.readHandshake data n = some out ∧
      out.proxy.cipher = (data.take (z + 13)).drop (z + 5) ∧ out.proxy.cipher.length = 8) := by
  constructor
  · intro h
    refine ⟨_, readHandshake_eq p data n z hz (by omega) (fun _ => by omega), ?_, ?_⟩
    · show (if z + 32 < n then _ else _) = _
      rw [if_pos (by omega)]
    · show (if z + 32 < n then _ else _ : List Nat).length = 20
      rw [if_pos (by omega), List.length_append, length_drop_take _ _ _ (by omega),
        length_drop_take _ _ _ (by omega)]
      omega
  · intro h h16
    refine ⟨_, readHandshake_eq p data n z hz h16 (fun h' => by omega), ?_, ?_⟩
    · show (if z + 32 < n then _ else _) = _
      rw [if_neg (by omega)]
    · show (if z + 32 < n then _ else _ : List Nat).length = 8
      rw [if_neg (by omega), length_drop_take _ _ _ (by omega)]
      omega

theorem readHandshake_challenge_witness :
    (∃ out, (⟨⟨[], []⟩, serverHandshake, []⟩ : MysqlProxy).readHandshake
        ([74, 0, 0, 0, 10, 53, 0] ++ List.range 43) 50 = some out ∧
      out.proxy.cipher = [4, 5, 6, 7, 8, 9, 10, 11] ++
        [31, 32, 33, 34, 35, 36, 37, 38, 39, 40, 41, 42]
      ∧ out.proxy.cipher.length = 20) ∧
    (∃ out, (⟨⟨[], []⟩, serverHandshake, []⟩ : MysqlProxy).readHandshake
        ([74, 0, 0, 0, 10, 53, 0] ++ List.range 43) 38 = some out ∧
      out.proxy.cipher = [4, 5, 6, 7, 8, 9, 10, 11] ∧ out.proxy.cipher.length = 8) :=
  ⟨(readHandshake_challenge ⟨⟨[], []⟩, serverHandshake, []⟩
      ([74, 0, 0, 0, 10, 53, 0] ++ List.range 43) 50 6
      ⟨by decide, by decide, by decide⟩ (by decide)).1 (by decide),
   (readHandshake_challenge ⟨⟨[], []⟩, serverHandshake, []⟩
      ([74, 0, 0, 0, 10, 53, 0] ++ List.range 43) 38 6
      ⟨by decide, by decide, by decide⟩ (by decide)).2 (by decide) (by decide)⟩

/-! ## Claims on the auth mutator -/

theorem length_written (data : List Nat) (n e : Nat) (user scramble : List Nat) :
    (written data n e user scramble).length = data.length := by
  simp [written, length_copyAt]

theorem length_spliced (data : List Nat) (n e : Nat) (user scramble : List Nat) :
    (spliced data n e user scramble).length = data.length := by
  simp [spliced, length_copyAt, length_written]

theorem length_rewritten (data : List Nat) (n e : Nat) (user scramble : List Nat) (m : Nat) :
    (rewritten data n e user scramble m).length = data.length := by
  simp [rewritten, length_spliced]

theorem getElem?_rewritten_of_le (data : List Nat) (n e : Nat) (user scramble : List Nat)
    (m i : Nat) (hi : 3 ≤ i) :
    (rewritten data n e user scramble m)[i]? = (spliced data n e user scramble)[i]? := by
  unfold rewritten
  rw [List.getElem?_set_ne (by omega), List.getElem?_set_ne (by omega),
    List.getElem?_set_ne (by omega)]

theorem rewritten_header (data : List Nat) (n e : Nat) (user scramble : List Nat) (m : Nat)
    (hlen : 3 ≤ data.length) (hm : m - 4 < 2 ^ 24) :
    (rewritten data n e user scramble m).getD 0 0
      + 256 * (rewritten data n e user scramble m).getD 1 0
      + 65536 * (rewritten data n e user scramble m).getD 2 0 = m - 4 := by
  have hl := length_spliced data n e user scramble
  have h0 : (rewritten data n e user scramble m)[0]? = some ((m - 4) % 256) := by
    unfold rewritten
    rw [List.getElem?_set_ne (by omega), List.getElem?_set_ne (by omega),
      List.getElem?_set_self (by omega)]
  have h1 : (rewritten data n e user scramble m)[1]? = some (((m - 4) >>> 8) % 256) := by
    unfold rewritten
    rw [List.getElem?_set_ne (by omega), List.getElem?_set_self (by simp; omega)]
  have h2 : (rewritten data n e user scramble m)[2]? = some (((m - 4) >>> 16) % 256) := by
    unfold rewritten
    rw [List.getElem?_set_self (by simp; omega)]
  rw [getD_of_getElem? h0, getD_of_getElem? h1, getD_of_getElem? h2,
    Nat.shiftRight_eq_div_pow, Nat.shiftRight_eq_div_pow]
  omega

/-- The new fields as `readAuth` writes them from index 36. -/
theorem written_fields (data : List Nat) (n e : Nat) (user scramble : List Nat) (i : Nat)
    (hcap : 36 + user.length + 2 + scramble.length ≤ data.length)
    (hi : i < user.length + 2 + scramble.length) :
    (written data n e user scramble)[36 + i]?
      = (user ++ [0] ++ [scramble.length % 256] ++ scramble)[i]? := by
  unfold written
  simp only []
  rw [getElem?_copyAt]
  have hk : copyLen ((((copyAt (copyAt data n ((data.take n).drop e)) 36 user).set
      (36 + user.length) 0).set (36 + user.length + 1) (scramble.length % 256)))
      (36 + user.length + 1 + 1) scramble = scramble.length := by
    simp [copyLen, length_copyAt]; omega
  rw [hk]
  by_cases h1 : user.length + 2 ≤ i
  · rw [if_pos (by omega), List.getElem?_append_right (by simp; omega)]
    congr 1
    simp; omega
  · rw [if_neg (by omega), List.getElem?_append_left (by simp; omega)]
    by_cases h2 : i = user.length + 1
    · subst h2
      rw [show 36 + (user.length + 1) = 36 + user.length + 1 by omega,
        List.getElem?_set_self (by simp [length_copyAt]; omega),
        List.getElem?_append_right (by simp)]
      simp
    · rw [List.getElem?_set_ne (by omega), List.getElem?_append_left (by simp; omega)]
      by_cases h3 : i = user.length
      · subst h3
        rw [List.getElem?_set_self (by simp [length_copyAt]; omega),
          List.getElem?_append_right (by simp)]
        simp
      · rw [List.getElem?_set_ne (by omega), List.getElem?_append_left (by omega),
          getElem?_copyAt]
        have hk2 : copyLen (copyAt data n ((data.take n).drop e)) 36 user = user.length := by
          simp [copyLen, length_copyAt]; omega
        rw [hk2, if_pos (by omega)]
        congr 1
        omega

/-- Behind the new fields, and at or after `n`, the buffer holds the saved
trailing bytes. -/
theorem written_saved (data : List Nat) (n e : Nat) (user scramble : List Nat) (j : Nat)
    (he : e ≤ n) (hcap : 2 * n - e ≤ data.length) (hj : j < n - e)
    (hfree : 36 + user.length + 2 + scramble.length ≤ n + j) :
    (written data n e user scramble)[n + j]? = data[e + j]? := by
  unfold written
  simp only []
  rw [getElem?_copyAt, if_neg (by simp [copyLen]; omega),
    List.getElem?_set_ne (by omega), List.getElem?_set_ne (by omega), getElem?_copyAt,
    if_neg (by simp [copyLen]; omega), getElem?_copyAt]
  have hk1 : copyLen data n ((data.take n).drop e) = n - e := by
    simp [copyLen]; omega
  rw [hk1, if_pos (by omega), List.getElem?_drop, List.getElem?_take, if_pos (by omega)]
  congr 1
  omega

/-- The byte copied back to position `j` of the output tail is whatever
the buffer holds at `n + j` after the new fields were written. -/
theorem spliced_back (data : List Nat) (n e : Nat) (user scramble : List Nat) (j : Nat)
    (he : e ≤ n)
    (hcap : n + (36 + user.length + 2 + scramble.length + (n - e)) ≤ data.length)
    (hj : j < n - e) :
    (spliced data n e user scramble)[36 + user.length + 1 + 1 + scramble.length + j]?
      = (written data n e user scramble)[n + j]? := by
  unfold spliced
  rw [getElem?_copyAt]
  have hk : copyLen (written data n e user scramble)
      (36 + user.length + 1 + 1 + scramble.length)
      (((written data n e user scramble).take (2 * n - e)).drop n) = n - e := by
    simp [copyLen, length_written]; omega
  rw [hk, if_pos (by omega), List.getElem?_drop, List.getElem?_take, if_pos (by omega)]
  congr 1
  omega

theorem spliced_fields (data : List Nat) (n e : Nat) (user scramble : List Nat) (i : Nat)
    (hcap : 36 + user.length + 2 + scramble.length ≤ data.length)
    (hi : i < user.length + 2 + scramble.length) :
    (spliced data n e user scramble)[36 + i]?
      = (user ++ [0] ++ [scramble.length % 256] ++ scramble)[i]? := by
  unfold spliced
  rw [getElem?_copyAt, if_neg (by omega), written_fields _ _ _ _ _ _ hcap hi]

theorem rewritten_fields (data : List Nat) (n e : Nat) (user scramble : List Nat) (m : Nat)
    (hcap : 36 + user.length + 2 + scramble.length ≤ data.length) :
    ((rewritten data n e user scramble m).drop 36).take (user.length + 2 + scramble.length)
      = user ++ [0] ++ [scramble.length % 256] ++ scramble := by
  apply List.ext_getElem?
  intro i
  by_cases hi : i < user.length + 2 + scramble.length
  · rw [List.getElem?_take, if_pos hi, List.getElem?_drop,
      getElem?_rewritten_of_le _ _ _ _ _ _ _ (by omega), spliced_fields _ _ _ _ _ _ hcap hi]
  · rw [List.getElem?_take, if_neg hi, eq_comm, List.getElem?_eq_none_iff]
    simp; omega

/-- Where the rewritten fields end at or before the old logical length `n`
(the rewrite does not reach the saved copy at `data[n ..]`), `readAuth`
keeps the trailing bytes: the last `n - e` bytes of the output are `data[e .. n)`. -/
theorem readAuth_tail_of_fits (p : MysqlProxy) (data : List Nat) (n u L : Nat)
    (hn : 36 < n) (hU : p.config.MySQLUser ≠ [])
    (hz : FirstZeroAt data 36 u) (hL : data[u + 1]? = some L)
    (he : u + 2 + L ≤ n)
    (hcap : n + authLength p.config.MySQLUser
        (scramblePassword p.cipher p.config.MySQLPassword) n (u + 2 + L) ≤ data.length)
    (hfits : 36 + p.config.MySQLUser.length + 2
        + (scramblePassword p.cipher p.config.MySQLPassword).length ≤ n) :
    ∃ out, p.readAuth data n = some out ∧
      (out.data.take out.n).drop (out.n - (n - (u + 2 + L))) = (data.take n).drop (u + 2 + L) := by
  unfold authLength at hcap
  refine ⟨_, readAuth_eq p data n u L hn hU hz hL he hcap, ?_⟩
  generalize scramblePassword p.cipher p.config.MySQLPassword = s at *
  generalize p.config.MySQLUser = U at *
  generalize u + 2 + L = e at *
  show ((rewritten data n e U s _).take (36 + U.length + 2 + s.length + (n - e))).drop
    (36 + U.length + 2 + s.length + (n - e) - (n - e)) = _
  apply List.ext_getElem?
  intro j
  rw [List.getElem?_drop, List.getElem?_take, List.getElem?_drop, List.getElem?_take]
  by_cases hj : j < n - e
  · rw [if_pos (by omega), if_pos (by omega), getElem?_rewritten_of_le _ _ _ _ _ _ _ (by omega),
      show 36 + U.length + 2 + s.length + (n - e) - (n - e) + j
        = 36 + U.length + 1 + 1 + s.length + j by omega,
      spliced_back data n e U s j he hcap hj,
      written_saved data n e U s j he (by omega) hj (by omega)]
  · rw [if_neg (by omega), if_neg (by omega)]

/-- Where the rewritten fields run past the whole saved copy
(`2n - e ≤ 36 + len(U) + 2 + len(s)`), the last `n - e` bytes of the output of
`readAuth` are bytes of the new fields, those written at `data[n .. 2n-e)`. -/
theorem readAuth_tail_of_overrun (p : MysqlProxy) (data : List Nat) (n u L : Nat)
    (hn : 36 < n) (hU : p.config.MySQLUser ≠ [])
    (hz : FirstZeroAt data 36 u) (hL : data[u + 1]? = some L)
    (he : u + 2 + L ≤ n)
    (hcap : n + authLength p.config.MySQLUser
        (scramblePassword p.cipher p.config.MySQLPassword) n (u + 2 + L) ≤ data.length)
    (hover : 2 * n - (u + 2 + L) ≤ 36 + p.config.MySQLUser.length + 2
        + (scramblePassword p.cipher p.config.MySQLPassword).length) :
    ∃ out, p.readAuth data n = some out ∧
      out.n = authLength p.config.MySQLUser
        (scramblePassword p.cipher p.config.MySQLPassword) n (u + 2 + L) ∧
      (out.data.take out.n).drop (out.n - (n - (u + 2 + L)))
        = ((p.config.MySQLUser ++ [0]
            ++ [(scramblePassword p.cipher p.config.MySQLPassword).length % 256]
            ++ scramblePassword p.cipher p.config.MySQLPassword).drop (n - 36)).take
              (n - (u + 2 + L)) := by
  unfold authLength at hcap ⊢
  refine ⟨_, readAuth_eq p data n u L hn hU hz hL he hcap, rfl, ?_⟩
  generalize scramblePassword p.cipher p.config.MySQLPassword = s at *
  generalize p.config.MySQLUser = U at *
  generalize u + 2 + L = e at *
  show ((rewritten data n e U s _).take (36 + U.length + 2 + s.length + (n - e))).drop
    (36 + U.length + 2 + s.length + (n - e) - (n - e)) = _
  apply List.ext_getElem?
  intro j
  rw [List.getElem?_drop, List.getElem?_take, List.getElem?_take, List.getElem?_drop]
  by_cases hj : j < n - e
  · rw [if_pos (by omega), if_pos (by omega), getElem?_rewritten_of_le _ _ _ _ _ _ _ (by omega),
      show 36 + U.length + 2 + s.length + (n - e) - (n - e) + j
        = 36 + U.length + 1 + 1 + s.length + j by omega,
      spliced_back data n e U s j he hcap hj,
      show n + j = 36 + (n - 36 + j) by omega,
      written_fields data n e U s (n - 36 + j) (by omega) (by omega)]
  · rw [if_neg (by omega), if_neg (by omega)]

/-- C2 (auth length recomputation): for a well-formed auth packet (`n > 36`,
first `0x00` at or after index 36 at `u`, `L = data[u+1]`, `e = u+2+L ≤ n`,
hence `u < n`) in a buffer of capacity at least `n + n'`, rewritten with a
non-empty override username `U` and scramble `s`, `readAuth` returns
`n' = 36 + len(U) + 2 + len(s) + (n - e)`, and, `n' - 4` being in the range of
a 3-byte length (`< 2^24`), `data'[0] + 256*data'[1] + 65536*data'[2] = n' - 4`. -/
theorem readAuth_length (p : MysqlProxy) (data : List Nat) (n u L : Nat)
    (hn : 36 < n) (hU : p.config.MySQLUser ≠ [])
    (hz : FirstZeroAt data 36 u) (hL : data[u + 1]? = some L)
    (he : u + 2 + L ≤ n)
    (hcap : n + authLength p.config.MySQLUser
        (scramblePassword p.cipher p.config.MySQLPassword) n (u + 2 + L) ≤ data.length)
    (hfit : authLength p.config.MySQLUser
        (scramblePassword p.cipher p.config.MySQLPassword) n (u + 2 + L) - 4 < 2 ^ 24) :
    ∃ out, p.readAuth data n = some out ∧
      out.n = 36 + p.config.MySQLUser.length + 2
        + (scramblePassword p.cipher p.config.MySQLPassword).length + (n - (u + 2 + L)) ∧
      out.data.getD 0 0 + 256 * out.data.getD 1 0 + 65536 * out.data.getD 2 0 = out.n - 4 := by
  unfold authLength at hcap hfit
  refine ⟨_, readAuth_eq p data n u L hn hU hz hL he hcap, rfl, ?_⟩
  exact rewritten_header _ _ _ _ _ _ (by omega) hfit

theorem readAuth_length_witness :
    ∃ out, (⟨⟨[98, 111, 98], [115, 101, 99, 114, 101, 116]⟩, clientAuth,
        [1, 2, 3, 4, 5, 6, 7, 8, 9, 10, 11, 12, 13, 14, 15, 16, 17, 18, 19, 20]⟩ :
        MysqlProxy).readAuth
        ([66, 0, 0, 1] ++ List.replicate 32 0 ++ [97, 108, 105, 99, 101, 0, 20]
          ++ List.replicate 20 170 ++ [100, 98, 110, 97, 109, 101, 0] ++ List.replicate 68 0)
        70 = some out ∧
      out.n = 36 + [98, 111, 98].length + 2
        + (scramblePassword [1, 2, 3, 4, 5, 6, 7, 8, 9, 10, 11, 12, 13, 14, 15, 16, 17, 18, 19, 20]
            [115, 101, 99, 114, 101, 116]).length + (70 - (41 + 2 + 20)) ∧
      out.data.getD 0 0 + 256 * out.data.getD 1 0 + 65536 * out.data.getD 2 0 = out.n - 4 :=
  readAuth_length ⟨⟨[98, 111, 98], [115, 101, 99, 114, 101, 116]⟩, clientAuth,
      [1, 2, 3, 4, 5, 6, 7, 8, 9, 10, 11, 12, 13, 14, 15, 16, 17, 18, 19, 20]⟩
    ([66, 0, 0, 1] ++ List.replicate 32 0 ++ [97, 108, 105, 99, 101, 0, 20]
          ++ List.replicate 20 170 ++ [100, 98, 110, 97, 109, 101, 0] ++ List.replicate 68 0)
    70 41 20
    (by decide) (by decide) ⟨by decide, by decide, by decide⟩ (by decide) (by decide)
    (by decide) (by decide)

/-- C3 (credential substitution layout): for a well-formed auth packet in a
buffer of sufficient capacity, rewritten with a non-empty override username `U`
and override password `P`, the output bytes from index 36 on are `U`, `0x00`,
one byte equal to `len(s)`, then `s`, where `s = scramblePassword(challenge, P)`;
when `P` is empty, `s` is empty, the length byte is 0 and the returned length
leaves no room for response bytes; the phase becomes `established`. -/
theorem readAuth_layout (p : MysqlProxy) (data : List Nat) (n u L : Nat)
    (hn : 36 < n) (hU : p.config.MySQLUser ≠ [])
    (hz : FirstZeroAt data 36 u) (hL : data[u + 1]? = some L)
    (he : u + 2 + L ≤ n)
    (hcap : n + authLength p.config.MySQLUser
        (scramblePassword p.cipher p.config.MySQLPassword) n (u + 2 + L) ≤ data.length) :
    ∃ out, p.readAuth data n = some out ∧
      (out.data.drop 36).take (p.config.MySQLUser.length + 2
          + (scramblePassword p.cipher p.config.MySQLPassword).length)
        = p.config.MySQLUser ++ [0x00]
          ++ [(scramblePassword p.cipher p.config.MySQLPassword).length]
          ++ scramblePassword p.cipher p.config.MySQLPassword ∧
      (p.config.MySQLPassword = [] →
        (out.data.drop 36).take (p.config.MySQLUser.length + 2) = p.config.MySQLUser ++ [0x00, 0]
        ∧ out.n = 36 + p.config.MySQLUser.length + 2 + (n - (u + 2 + L))) ∧
      out.proxy.state = established := by
  unfold authLength at hcap
  have hs256 : (scramblePassword p.cipher p.config.MySQLPassword).length % 256
      = (scramblePassword p.cipher p.config.MySQLPassword).length := by
    rw [length_scramblePassword]; split <;> rfl
  have hf := rewritten_fields data n (u + 2 + L) p.config.MySQLUser
    (scramblePassword p.cipher p.config.MySQLPassword)
    (36 + p.config.MySQLUser.length + 2
      + (scramblePassword p.cipher p.config.MySQLPassword).length + (n - (u + 2 + L)))
    (by omega)
  rw [hs256] at hf
  refine ⟨_, readAuth_eq p data n u L hn hU hz hL he hcap, hf, ?_, rfl⟩
  intro hP
  have hs0 : scramblePassword p.cipher p.config.MySQLPassword = [] := by
    rw [hP]; exact scramblePassword_nil _
  rw [hs0] at hf ⊢
  simp only [List.length_nil, Nat.add_zero, List.append_nil] at hf ⊢
  exact ⟨by simpa using hf, trivial⟩

theorem readAuth_layout_witness :
    (∃ out, (⟨⟨[98, 111, 98], [115, 101, 99, 114, 101, 116]⟩, clientAuth,
        [1, 2, 3, 4, 5, 6, 7, 8, 9, 10, 11, 12, 13, 14, 15, 16, 17, 18, 19, 20]⟩ :
        MysqlProxy).readAuth
        ([66, 0, 0, 1] ++ List.replicate 32 0 ++ [97, 108, 105, 99, 101, 0, 20]
          ++ List.replicate 20 170 ++ [100, 98, 110, 97, 109, 101, 0] ++ List.replicate 68 0)
        70 = some out ∧
      (out.data.drop 36).take ([98, 111, 98].length + 2
          + (scramblePassword [1, 2, 3, 4, 5, 6, 7, 8, 9, 10, 11, 12, 13, 14, 15, 16, 17, 18, 19, 20]
            [115, 101, 99, 114, 101, 116]).length)
        = [98, 111, 98] ++ [0x00]
          ++ [(scramblePassword [1, 2, 3, 4, 5, 6, 7, 8, 9, 10, 11, 12, 13, 14, 15, 16, 17, 18, 19, 20]
            [115, 101, 99, 114, 101, 116]).length]
          ++ (scramblePassword [1, 2, 3, 4, 5, 6, 7, 8, 9, 10, 11, 12, 13, 14, 15, 16, 17, 18, 19, 20]
            [115, 101, 99, 114, 101, 116]) ∧
      (([115, 101, 99, 114, 101, 116] : List Nat) = [] →
        (out.data.drop 36).take ([98, 111, 98].length + 2) = [98, 111, 98] ++ [0x00, 0]
        ∧ out.n = 36 + [98, 111, 98].length + 2 + (70 - (41 + 2 + 20))) ∧
      out.proxy.state = established) ∧
    (∃ out, (⟨⟨[98, 111, 98], []⟩, clientAuth, []⟩ : MysqlProxy).readAuth
        (List.replicate 36 7 ++ [97, 0, 0, 100, 98, 0] ++ List.replicate 60 255) 42 = some out ∧
      (out.data.drop 36).take ([98, 111, 98].length + 2) = [98, 111, 98] ++ [0x00, 0]
        ∧ out.n = 36 + [98, 111, 98].length + 2 + (42 - (37 + 2 + 0))) :=
  ⟨readAuth_layout ⟨⟨[98, 111, 98], [115, 101, 99, 114, 101, 116]⟩, clientAuth,
      [1, 2, 3, 4, 5, 6, 7, 8, 9, 10, 11, 12, 13, 14, 15, 16, 17, 18, 19, 20]⟩
    ([66, 0, 0, 1] ++ List.replicate 32 0 ++ [97, 108, 105, 99, 101, 0, 20]
          ++ List.replicate 20 170 ++ [100, 98, 110, 97, 109, 101, 0] ++ List.replicate 68 0)
    70 41 20
    (by decide) (by decide) ⟨by decide, by decide, by decide⟩ (by decide) (by decide)
    (by decide),
   (readAuth_layout ⟨⟨[98, 111, 98], []⟩, clientAuth, []⟩
    (List.replicate 36 7 ++ [97, 0, 0, 100, 98, 0] ++ List.replicate 60 255) 42 37 0
    (by decide) (by decide) ⟨by decide, by decide, by decide⟩ (by decide) (by decide)
    (by decide)).elim (fun out h => ⟨out, h.1, h.2.2.1 rfl⟩)⟩

theorem scramble_secret :
    scramblePassword [1, 2, 3, 4, 5, 6, 7, 8, 9, 10, 11, 12, 13, 14, 15, 16, 17, 18, 19, 20]
      [115, 101, 99, 114, 101, 116]
      = [179, 43, 179, 165, 131, 225, 52, 12, 10, 17, 8, 213, 139, 27, 228, 151, 129, 173,
          140, 47] := by
  decide

/-- The growing rewrite ("a", empty response, "dbname\0" to "bob" with a
20-byte scramble) in a buffer with any `68` or more bytes behind the packet. -/
theorem readAuth_growing_any_capacity (pad : List Nat) (hpad : 68 ≤ pad.length) :
    ∃ out, (⟨⟨[98, 111, 98], [115, 101, 99, 114, 101, 116]⟩, clientAuth,
        [1, 2, 3, 4, 5, 6, 7, 8, 9, 10, 11, 12, 13, 14, 15, 16, 17, 18, 19, 20]⟩ :
        MysqlProxy).readAuth
      ([42, 0, 0, 1] ++ List.replicate 32 0 ++ [97, 0, 0]
        ++ [100, 98, 110, 97, 109, 101, 0] ++ pad) 46 = some out ∧
      out.n = 68 ∧
      (out.data.take out.n).drop (out.n - (46 - 39)) = [225, 52, 12, 10, 17, 8, 213] := by
  have hs := scramble_secret
  have hlen : ([42, 0, 0, 1] ++ List.replicate 32 0 ++ [97, 0, 0]
      ++ [100, 98, 110, 97, 109, 101, 0] ++ pad).length = 46 + pad.length := by
    simp only [List.length_append, List.length_replicate, List.length_cons, List.length_nil]
  have hget : ∀ i, i < 46 → ([42, 0, 0, 1] ++ List.replicate 32 0 ++ [97, 0, 0]
      ++ [100, 98, 110, 97, 109, 101, 0] ++ pad)[i]?
      = ([42, 0, 0, 1] ++ List.replicate 32 0 ++ [97, 0, 0]
      ++ [100, 98, 110, 97, 109, 101, 0])[i]? := by
    intro i hi
    exact List.getElem?_append_left (by
      simp only [List.length_append, List.length_replicate, List.length_cons, List.length_nil]
      omega)
  obtain ⟨out, h1, h2, h3⟩ := readAuth_tail_of_overrun
    ⟨⟨[98, 111, 98], [115, 101, 99, 114, 101, 116]⟩, clientAuth,
      [1, 2, 3, 4, 5, 6, 7, 8, 9, 10, 11, 12, 13, 14, 15, 16, 17, 18, 19, 20]⟩
    ([42, 0, 0, 1] ++ List.replicate 32 0 ++ [97, 0, 0]
      ++ [100, 98, 110, 97, 109, 101, 0] ++ pad) 46 37 0
    (by decide) (by decide)
    ⟨by decide, by rw [hget 37 (by decide)]; decide, fun i hi h36 => by
      have : i = 36 := by omega
      subst this
      rw [hget 36 (by decide)]; decide⟩
    (by rw [hget _ (by decide)]; decide) (by decide)
    (by rw [hlen]; simp only [authLength, hs, List.length_cons, List.length_nil]; omega)
    (by simp only [hs, List.length_cons, List.length_nil]; omega)
  refine ⟨out, h1, ?_, ?_⟩
  · rw [h2]; simp only [authLength, hs, List.length_cons, List.length_nil]
  · rw [h3]; simp only [hs]; decide

/-- C1 (auth splice preserves trailing bytes) fails on the growing rewrite the
claim names: original username "a", empty auth response, trailing "dbname\0"
(`n = 46`, `u = 37`, `L = 0`, `e = 39`), rewritten to "bob" with the 20-byte
scramble of password "secret".  In a buffer of capacity `46 + 68` and in the
relay's buffer of 4096 bytes alike, `readAuth` returns `n' = 68`, but the last
7 bytes of the output are bytes 5..11 of the scramble, which was written over
the saved copy of the trailing bytes at `data[46 .. 53)`, not "dbname\0". -/
theorem readAuth_growing_rewrite_loses_tail :
    (FirstZeroAt ([42, 0, 0, 1] ++ List.replicate 32 0 ++ [97, 0, 0]
      ++ [100, 98, 110, 97, 109, 101, 0] ++ List.replicate 68 0) 36 37 ∧
    ([42, 0, 0, 1] ++ List.replicate 32 0 ++ [97, 0, 0]
      ++ [100, 98, 110, 97, 109, 101, 0] ++ List.replicate 68 0)[38]? = some 0 ∧
    ([42, 0, 0, 1] ++ List.replicate 32 0 ++ [97, 0, 0]
      ++ [100, 98, 110, 97, 109, 101, 0] ++ List.replicate 68 0).length = 46 + 68 ∧
    (([42, 0, 0, 1] ++ List.replicate 32 0 ++ [97, 0, 0]
      ++ [100, 98, 110, 97, 109, 101, 0] ++ List.replicate 68 0).take 46).drop 39
      = [100, 98, 110, 97, 109, 101, 0] ∧
    ((⟨⟨[98, 111, 98], [115, 101, 99, 114, 101, 116]⟩, clientAuth,
        [1, 2, 3, 4, 5, 6, 7, 8, 9, 10, 11, 12, 13, 14, 15, 16, 17, 18, 19, 20]⟩ :
        MysqlProxy).readAuth
      ([42, 0, 0, 1] ++ List.replicate 32 0 ++ [97, 0, 0]
        ++ [100, 98, 110, 97, 109, 101, 0] ++ List.replicate 68 0) 46).map
      (fun out => (out.n, (out.data.take out.n).drop (out.n - (46 - 39)),
        (out.data.take 61).drop 41))
      = some (68, [225, 52, 12, 10, 17, 8, 213],
          [179, 43, 179, 165, 131, 225, 52, 12, 10, 17, 8, 213, 139, 27, 228, 151, 129, 173,
            140, 47])) ∧
    (([42, 0, 0, 1] ++ List.replicate 32 0 ++ [97, 0, 0]
      ++ [100, 98, 110, 97, 109, 101, 0] ++ List.replicate 4050 0).length = 4 * 1024 ∧
     ∃ out, (⟨⟨[98, 111, 98], [115, 101, 99, 114, 101, 116]⟩, clientAuth,
        [1, 2, 3, 4, 5, 6, 7, 8, 9, 10, 11, 12, 13, 14, 15, 16, 17, 18, 19, 20]⟩ :
        MysqlProxy).readAuth
      ([42, 0, 0, 1] ++ List.replicate 32 0 ++ [97, 0, 0]
        ++ [100, 98, 110, 97, 109, 101, 0] ++ List.replicate 4050 0) 46 = some out ∧
      out.n = 68 ∧
      (out.data.take out.n).drop (out.n - (46 - 39)) = [225, 52, 12, 10, 17, 8, 213]) := by
  refine ⟨⟨⟨by decide, by decide, by decide⟩, by decide, by decide, by decide, by decide⟩,
    ?_, ?_⟩
  · simp only [List.length_append, List.length_replicate, List.length_cons, List.length_nil]
  · exact readAuth_growing_any_capacity (List.replicate 4050 0)
      (by simp only [List.length_replicate]; omega)

/-! ## Claims on dispatch and the query observer -/

/-- C11 (dispatch pass-through cells): for every buffer and logical length,
`serverFilter` in any phase other than `serverHandshake` (`clientAuth`,
`established`, `stopped`), and `clientFilter` in phase `serverHandshake` or
`stopped`, return `n`, leave the buffer, the phase and the captured challenge
(the whole session) unchanged and log nothing. -/
theorem dispatch_pass_through (p : MysqlProxy) (data : List Nat) (n : Nat) :
    (p.state = clientAuth ∨ p.state = established ∨ p.state = stopped →
      p.serverFilter data n = some ⟨p, data, n, []⟩) ∧
    (p.state = serverHandshake ∨ p.state = stopped →
      p.clientFilter data n = some ⟨p, data, n, []⟩) := by
  constructor
  · intro h
    have h0 : p.state ≠ serverHandshake := by
      rcases h with h | h | h <;> rw [h] <;> decide
    simp [MysqlProxy.serverFilter, h0]
  · intro h
    have h1 : p.state ≠ clientAuth := by
      rcases h with h | h <;> rw [h] <;> decide
    have h2 : p.state ≠ established := by
      rcases h with h | h <;> rw [h] <;> decide
    simp [MysqlProxy.clientFilter, h1, h2]

theorem dispatch_pass_through_witness :
    (⟨⟨[98], [112]⟩, established, [1, 2]⟩ : MysqlProxy).serverFilter [10, 0, 7] 3
      = some ⟨⟨⟨[98], [112]⟩, established, [1, 2]⟩, [10, 0, 7], 3, []⟩ ∧
    (⟨⟨[98], [112]⟩, stopped, [1, 2]⟩ : MysqlProxy).clientFilter [10, 0, 7] 3
      = some ⟨⟨⟨[98], [112]⟩, stopped, [1, 2]⟩, [10, 0, 7], 3, []⟩ :=
  ⟨(dispatch_pass_through ⟨⟨[98], [112]⟩, established, [1, 2]⟩ [10, 0, 7] 3).1
      (Or.inr (Or.inl rfl)),
   (dispatch_pass_through ⟨⟨[98], [112]⟩, stopped, [1, 2]⟩ [10, 0, 7] 3).2 (Or.inr rfl)⟩

theorem readClientPackage_eq (p : MysqlProxy) (data : List Nat) (n op : Nat)
    (h4 : data[4]? = some op) (h5 : 5 ≤ n) (hn : n ≤ data.length) :
    p.readClientPackage data n
      = some ⟨p, data, n, if op = comQuery then [(data.take n).drop 5] else []⟩ := by
  unfold MysqlProxy.readClientPackage
  simp only [Option.bind_eq_bind, Option.pure_def, h4, Option.some_bind]
  by_cases hop : op = comQuery
  · rw [if_pos hop, if_pos hop, slice_eq_some data 5 n h5 hn]
    rfl
  · rw [if_neg hop, if_neg hop]

/-- C12 (query observer is read-only): in phase `established`, for every buffer
and logical length `5 ≤ n ≤` buffer length, `clientFilter` returns `n` and leaves
the buffer and the session (phase, challenge) unchanged; it hands a query text
to the logger if and only if `data[4]` is the `COM_QUERY` code 3, and that text
is exactly `data[5 .. n)`. -/
theorem clientFilter_query_observer (p : MysqlProxy) (data : List Nat) (n : Nat)
    (hs : p.state = established) (h5 : 5 ≤ n) (hn : n ≤ data.length) :
    ∃ out, p.clientFilter data n = some out ∧ out.n = n ∧ out.data = data ∧ out.proxy = p ∧
      (out.logged ≠ [] ↔ data[4]? = some comQuery) ∧
      (data[4]? = some comQuery → out.logged = [(data.take n).drop 5]) ∧
      (data[4]? ≠ some comQuery → out.logged = []) := by
  obtain ⟨op, hop⟩ : ∃ op, data[4]? = some op := by
    cases h : data[4]? with
    | none => rw [List.getElem?_eq_none_iff] at h; omega
    | some op => exact ⟨op, rfl⟩
  have he : established ≠ clientAuth := by decide
  refine ⟨_, by
    unfold MysqlProxy.clientFilter
    rw [hs, if_neg he, if_pos rfl]
    exact readClientPackage_eq p data n op hop h5 hn, rfl, rfl, rfl, ?_⟩
  rw [hop]
  by_cases h : op = comQuery
  · simp [h]
  · simp [h]

theorem clientFilter_query_observer_witness :
    ∃ out, (⟨⟨[98], [112]⟩, established, [1, 2]⟩ : MysqlProxy).clientFilter
        [9, 0, 0, 0, 3, 83, 69, 76, 69, 67, 84, 32, 49, 255, 255] 13 = some out ∧
      out.n = 13 ∧ out.data = [9, 0, 0, 0, 3, 83, 69, 76, 69, 67, 84, 32, 49, 255, 255] ∧
      out.proxy = ⟨⟨[98], [112]⟩, established, [1, 2]⟩ ∧
      (out.logged ≠ [] ↔
        [9, 0, 0, 0, 3, 83, 69, 76, 69, 67, 84, 32, 49, 255, 255][4]? = some comQuery) ∧
      ([9, 0, 0, 0, 3, 83, 69, 76, 69, 67, 84, 32, 49, 255, 255][4]? = some comQuery →
        out.logged = [[83, 69, 76, 69, 67, 84, 32, 49]]) ∧
      ([9, 0, 0, 0, 3, 83, 69, 76, 69, 67, 84, 32, 49, 255, 255][4]? ≠ some comQuery →
        out.logged = []) :=
  clientFilter_query_observer ⟨⟨[98], [112]⟩, established, [1, 2]⟩
    [9, 0, 0, 0, 3, 83, 69, 76, 69, 67, 84, 32, 49, 255, 255] 13 rfl (by decide) (by decide)

/-! ## Further claims on the scrambler -/

theorem scramblePassword_eq_map (c p : List Nat) (hp : p ≠ []) :
    scramblePassword c p = (List.range (sha1 (c ++ sha1 (sha1 p))).length).map
      (fun i => (sha1 (c ++ sha1 (sha1 p))).getD i 0 ^^^ (sha1 p).getD i 0) := by
  have hpl : p.length ≠ 0 := by simpa using hp
  unfold scramblePassword
  rw [if_neg hpl]

theorem xorBytes_map_xor (A B : List Nat) (h : A.length = B.length) :
    xorBytes ((List.range A.length).map (fun i => A.getD i 0 ^^^ B.getD i 0)) A = B := by
  apply List.ext_getElem?
  intro i
  unfold xorBytes
  rw [List.getElem?_zipWith, List.getElem?_map]
  by_cases hi : i < A.length
  · obtain ⟨a, ha⟩ : ∃ a, A[i]? = some a := ⟨A[i], List.getElem?_eq_getElem hi⟩
    obtain ⟨b, hb⟩ : ∃ b, B[i]? = some b := ⟨B[i], List.getElem?_eq_getElem (h ▸ hi)⟩
    simp only [List.getElem?_range hi, Option.map_some', List.getD_eq_getElem?_getD, ha, hb,
      Option.getD_some]
    rw [Nat.xor_comm a b, Nat.xor_assoc, Nat.xor_self, Nat.xor_zero]
  · have h1 : A[i]? = none := List.getElem?_eq_none_iff.mpr (by omega)
    have h2 : B[i]? = none := List.getElem?_eq_none_iff.mpr (by omega)
    have h3 : (List.range A.length)[i]? = none :=
      List.getElem?_eq_none_iff.mpr (by simp; omega)
    simp [h1, h2, h3]

/-- C19 (the scramble passes the server-side check): for every challenge `c` and
non-empty password `p`, with `s = scramblePassword(c, p)` and
`h2 = SHA1(SHA1(p))`, the bytewise XOR of `s` with `SHA1(c ++ h2)` is `SHA1(p)`,
and so the SHA-1 of that XOR is `h2`. -/
theorem scramblePassword_server_check (c p : List Nat) (hp : p ≠ []) :
    xorBytes (scramblePassword c p) (sha1 (c ++ sha1 (sha1 p))) = sha1 p ∧
    sha1 (xorBytes (scramblePassword c p) (sha1 (c ++ sha1 (sha1 p)))) = sha1 (sha1 p) := by
  have h : xorBytes (scramblePassword c p) (sha1 (c ++ sha1 (sha1 p))) = sha1 p := by
    rw [scramblePassword_eq_map c p hp]
    exact xorBytes_map_xor _ _ (by rw [length_sha1, length_sha1])
  exact ⟨h, by rw [h]⟩

theorem scramblePassword_server_check_witness :
    xorBytes (scramblePassword [1, 2, 3] [112, 119]) (sha1 ([1, 2, 3] ++ sha1 (sha1 [112, 119])))
      = sha1 [112, 119] ∧
    sha1 (xorBytes (scramblePassword [1, 2, 3] [112, 119])
      (sha1 ([1, 2, 3] ++ sha1 (sha1 [112, 119])))) = sha1 (sha1 [112, 119]) :=
  scramblePassword_server_check [1, 2, 3] [112, 119] (by decide)

/-! ## Frame of the auth rewrite -/

theorem written_low (data : List Nat) (n e : Nat) (user scramble : List Nat) (i : Nat)
    (hi : i < 36) (hn : 36 ≤ n) :
    (written data n e user scramble)[i]? = data[i]? := by
  unfold written
  simp only []
  rw [getElem?_copyAt, if_neg (by omega), List.getElem?_set_ne (by omega),
    List.getElem?_set_ne (by omega), getElem?_copyAt, if_neg (by omega), getElem?_copyAt,
    if_neg (by omega)]

theorem rewritten_low (data : List Nat) (n e : Nat) (user scramble : List Nat) (m i : Nat)
    (h3 : 3 ≤ i) (hi : i < 36) (hn : 36 ≤ n) :
    (rewritten data n e user scramble m)[i]? = data[i]? := by
  rw [getElem?_rewritten_of_le _ _ _ _ _ _ _ h3]
  unfold spliced
  rw [getElem?_copyAt, if_neg (by omega), written_low _ _ _ _ _ _ hi hn]

/-- C20 (auth rewrite frame): for a well-formed auth packet in a buffer of
sufficient capacity, rewritten by `readAuth` with a non-empty override
username, the sequence-number byte at index 3 and the fixed region at indices
4..35 are unchanged, and the session keeps its captured challenge and its
configuration. -/
theorem readAuth_frame (p : MysqlProxy) (data : List Nat) (n u L : Nat)
    (hn : 36 < n) (hU : p.config.MySQLUser ≠ [])
    (hz : FirstZeroAt data 36 u) (hL : data[u + 1]? = some L)
    (he : u + 2 + L ≤ n)
    (hcap : n + authLength p.config.MySQLUser
        (scramblePassword p.cipher p.config.MySQLPassword) n (u + 2 + L) ≤ data.length) :
    ∃ out, p.readAuth data n = some out ∧
      out.data[3]? = data[3]? ∧
      (∀ i, 4 ≤ i → i < 36 → out.data[i]? = data[i]?) ∧
      (out.data.take 36).drop 3 = (data.take 36).drop 3 ∧
      out.proxy.cipher = p.cipher ∧ out.proxy.config = p.config := by
  unfold authLength at hcap
  refine ⟨_, readAuth_eq p data n u L hn hU hz hL he hcap, ?_, ?_, ?_, rfl, rfl⟩
  · exact rewritten_low _ _ _ _ _ _ _ (by omega) (by omega) (by omega)
  · intro i h4 h36
    exact rewritten_low _ _ _ _ _ _ _ (by omega) h36 (by omega)
  · apply List.ext_getElem?
    intro i
    rw [List.getElem?_drop, List.getElem?_take, List.getElem?_drop, List.getElem?_take]
    by_cases hi : 3 + i < 36
    · rw [if_pos hi, if_pos hi]
      exact rewritten_low _ _ _ _ _ _ _ (by omega) hi (by omega)
    · rw [if_neg hi, if_neg hi]

theorem readAuth_frame_witness :
    ∃ out, (⟨⟨[98, 111, 98], [115, 101, 99, 114, 101, 116]⟩, clientAuth,
        [1, 2, 3, 4, 5, 6, 7, 8, 9, 10, 11, 12, 13, 14, 15, 16, 17, 18, 19, 20]⟩ :
        MysqlProxy).readAuth
        ([66, 0, 0, 1] ++ List.replicate 32 9 ++ [97, 108, 105, 99, 101, 0, 20]
          ++ List.replicate 20 170 ++ [100, 98, 110, 97, 109, 101, 0] ++ List.replicate 68 0)
        70 = some out ∧
      out.data[3]? = ([66, 0, 0, 1] ++ List.replicate 32 9 ++ [97, 108, 105, 99, 101, 0, 20]
          ++ List.replicate 20 170 ++ [100, 98, 110, 97, 109, 101, 0] ++ List.replicate 68 0)[3]? ∧
      (∀ i, 4 ≤ i → i < 36 → out.data[i]?
        = ([66, 0, 0, 1] ++ List.replicate 32 9 ++ [97, 108, 105, 99, 101, 0, 20]
          ++ List.replicate 20 170 ++ [100, 98, 110, 97, 109, 101, 0] ++ List.replicate 68 0)[i]?) ∧
      (out.data.take 36).drop 3 = [1] ++ List.replicate 32 9 ∧
      out.proxy.cipher
        = [1, 2, 3, 4, 5, 6, 7, 8, 9, 10, 11, 12, 13, 14, 15, 16, 17, 18, 19, 20] ∧
      out.proxy.config = ⟨[98, 111, 98], [115, 101, 99, 114, 101, 116]⟩ :=
  readAuth_frame ⟨⟨[98, 111, 98], [115, 101, 99, 114, 101, 116]⟩, clientAuth,
      [1, 2, 3, 4, 5, 6, 7, 8, 9, 10, 11, 12, 13, 14, 15, 16, 17, 18, 19, 20]⟩
    ([66, 0, 0, 1] ++ List.replicate 32 9 ++ [97, 108, 105, 99, 101, 0, 20]
      ++ List.replicate 20 170 ++ [100, 98, 110, 97, 109, 101, 0] ++ List.replicate 68 0)
    70 41 20
    (by decide) (by decide) ⟨by decide, by decide, by decide⟩ (by decide) (by decide)
    (by decide)

/-! ## Further claims on the handshake mutator -/

theorem length_withClearedCaps (data : List Nat) (z : Nat) :
    (withClearedCaps data z).length = data.length := by
  simp [withClearedCaps]

theorem getElem?_withClearedCaps_of_ne (data : List Nat) (z i : Nat)
    (h14 : i ≠ z + 14) (h15 : i ≠ z + 15) : (withClearedCaps data z)[i]? = data[i]? := by
  unfold withClearedCaps
  rw [List.getElem?_set_ne (by omega), List.getElem?_set_ne (by omega)]

theorem getD_withClearedCaps_lo (data : List Nat) (z : Nat) (hlen : z + 16 ≤ data.length) :
    (withClearedCaps data z).getD (z + 14) 0 = clearedCaps data z % 256 := by
  apply getD_of_getElem?
  unfold withClearedCaps
  rw [List.getElem?_set_ne (by omega), List.getElem?_set_self (by omega)]

theorem getD_withClearedCaps_hi (data : List Nat) (z : Nat) (hlen : z + 16 ≤ data.length) :
    (withClearedCaps data z).getD (z + 15) 0 = (clearedCaps data z >>> 8) % 256 := by
  apply getD_of_getElem?
  unfold withClearedCaps
  rw [List.getElem?_set_self (by simp; omega)]

theorem drop_take_withClearedCaps (data : List Nat) (z lo hi : Nat)
    (h : hi ≤ z + 14 ∨ z + 16 ≤ lo) :
    ((withClearedCaps data z).take hi).drop lo = (data.take hi).drop lo := by
  apply List.ext_getElem?
  intro j
  rw [List.getElem?_drop, List.getElem?_take, List.getElem?_drop, List.getElem?_take]
  by_cases hj : lo + j < hi
  · rw [if_pos hj, if_pos hj, getElem?_withClearedCaps_of_ne _ _ _ (by omega) (by omega)]
  · rw [if_neg hj, if_neg hj]

theorem firstZero_withClearedCaps {data : List Nat} {z : Nat} (hz : FirstZeroAt data 5 z) :
    FirstZeroAt (withClearedCaps data z) 5 z := by
  obtain ⟨h1, h2, h3⟩ := hz
  refine ⟨h1, ?_, ?_⟩
  · rw [getElem?_withClearedCaps_of_ne _ _ _ (by omega) (by omega)]; exact h2
  · intro i hi h5
    rw [getElem?_withClearedCaps_of_ne _ _ _ (by omega) (by omega)]
    exact h3 i hi h5

theorem clearedCaps_withClearedCaps (data : List Nat) (z : Nat) (hlen : z + 16 ≤ data.length) :
    clearedCaps (withClearedCaps data z) z = clearedCaps data z := by
  have hlt := clearedCaps_lt data z
  have hv : (clearedCaps data z % 256 ||| ((clearedCaps data z >>> 8) % 256) <<< 8)
      = clearedCaps data z := by
    rw [Nat.lor_comm, ← add_shift_eq_or _ _ (Nat.mod_lt _ (by norm_num)),
      Nat.shiftRight_eq_div_pow]
    omega
  have hmask : clearedCaps data z &&& (2 ^ 16 - 1 - clientSSL) = clearedCaps data z := by
    unfold clearedCaps
    rw [Nat.and_assoc, Nat.and_self]
  conv_lhs => unfold clearedCaps
  rw [getD_withClearedCaps_lo data z hlen, getD_withClearedCaps_hi data z hlen, hv,
    Nat.mod_eq_of_lt hlt, hmask]

theorem withClearedCaps_idem (data : List Nat) (z : Nat) (hlen : z + 16 ≤ data.length) :
    withClearedCaps (withClearedCaps data z) z = withClearedCaps data z := by
  have hc := clearedCaps_withClearedCaps data z hlen
  have hl := length_withClearedCaps data z
  have h14 : (withClearedCaps data z)[z + 14]? = some (clearedCaps data z % 256) := by
    unfold withClearedCaps
    rw [List.getElem?_set_ne (by omega), List.getElem?_set_self (by omega)]
  have h15 : (withClearedCaps data z)[z + 15]? = some ((clearedCaps data z >>> 8) % 256) := by
    unfold withClearedCaps
    rw [List.getElem?_set_self (by simp; omega)]
  generalize withClearedCaps data z = W at hc hl h14 h15 ⊢
  unfold withClearedCaps
  rw [hc]
  apply List.ext_getElem?
  intro i
  by_cases hi15 : i = z + 15
  · subst hi15
    rw [List.getElem?_set_self (by simp; omega), h15]
  · rw [List.getElem?_set_ne (by omega)]
    by_cases hi14 : i = z + 14
    · subst hi14
      rw [List.getElem?_set_self (by omega), h14]
    · rw [List.getElem?_set_ne (by omega)]

/-- C17 (SSL-flag clearing is idempotent): for a handshake buffer whose first
`0x00` at or after index 5 is at `z`, with `z + 44 ≤` buffer length, and any
logical length `n`, `readHandshake` applied to its own output returns the same
buffer, the same length and the same captured challenge (the same session) as
the first application. -/
theorem readHandshake_idempotent (p : MysqlProxy) (data : List Nat) (n z : Nat)
    (hz : FirstZeroAt data 5 z) (hlen : z + 44 ≤ data.length) :
    ∃ out1 out2, p.readHandshake data n = some out1 ∧
      out1.proxy.readHandshake out1.data out1.n = some out2 ∧
      out2.data = out1.data ∧ out2.n = out1.n ∧ out2.proxy.cipher = out1.proxy.cipher ∧
      out2 = out1 := by
  have h1 := readHandshake_eq p data n z hz (by omega) (fun _ => hlen)
  have h2 := readHandshake_eq
    { p with
      cipher := if z + 32 < n then
          (data.take (z + 13)).drop (z + 5) ++ (data.take (z + 44)).drop (z + 32)
        else (data.take (z + 13)).drop (z + 5),
      state := clientAuth }
    (withClearedCaps data z) n z (firstZero_withClearedCaps hz)
    (by rw [length_withClearedCaps]; omega) (fun _ => by rw [length_withClearedCaps]; exact hlen)
  rw [withClearedCaps_idem data z (by omega),
    drop_take_withClearedCaps data z (z + 5) (z + 13) (Or.inl (by omega)),
    drop_take_withClearedCaps data z (z + 32) (z + 44) (Or.inr (by omega))] at h2
  exact ⟨_, _, h1, h2, rfl, rfl, rfl, rfl⟩

theorem readHandshake_idempotent_witness :
    ∃ out1 out2, (⟨⟨[], []⟩, serverHandshake, []⟩ : MysqlProxy).readHandshake
        ([74, 0, 0, 0, 10, 53, 0] ++ List.replicate 43 255) 50 = some out1 ∧
      out1.proxy.readHandshake out1.data out1.n = some out2 ∧
      out2.data = out1.data ∧ out2.n = out1.n ∧ out2.proxy.cipher = out1.proxy.cipher ∧
      out2 = out1 :=
  readHandshake_idempotent ⟨⟨[], []⟩, serverHandshake, []⟩
    ([74, 0, 0, 0, 10, 53, 0] ++ List.replicate 43 255) 50 6
    ⟨by decide, by decide, by decide⟩ (by decide)

/-! ## Packets shorter than what the handlers read -/

theorem serverFilter_of_serverHandshake (p : MysqlProxy) (data : List Nat) (n : Nat)
    (hs : p.state = serverHandshake) : p.serverFilter data n = p.readHandshake data n := by
  unfold MysqlProxy.serverFilter
  rw [if_pos hs]

theorem clientFilter_of_clientAuth (p : MysqlProxy) (data : List Nat) (n : Nat)
    (hs : p.state = clientAuth) : p.clientFilter data n = p.readAuth data n := by
  unfold MysqlProxy.clientFilter
  rw [if_pos hs]

theorem clientFilter_of_established (p : MysqlProxy) (data : List Nat) (n : Nat)
    (hs : p.state = established) : p.clientFilter data n = p.readClientPackage data n := by
  unfold MysqlProxy.clientFilter
  rw [hs, if_neg (by decide), if_pos rfl]

theorem getElem?_append_replicate_left (pkt : List Nat) (k v i : Nat) (hi : i < pkt.length) :
    (pkt ++ List.replicate k v)[i]? = pkt[i]? :=
  List.getElem?_append_left hi

theorem getElem?_append_replicate_right (pkt : List Nat) (k v i : Nat)
    (h1 : pkt.length ≤ i) (h2 : i < pkt.length + k) :
    (pkt ++ List.replicate k v)[i]? = some v := by
  rw [List.getElem?_append_right h1, List.getElem?_replicate, if_pos (by omega)]

/-- With the terminator search of `readHandshake` running over the whole
buffer, a zero behind the packet counts as the terminator. -/
theorem firstZero_behind_packet (pkt : List Nat) (k : Nat) (hk : 0 < k) (h5 : 5 ≤ pkt.length)
    (hnz : ∀ i, i < pkt.length → 5 ≤ i → pkt[i]? ≠ some 0) :
    FirstZeroAt (pkt ++ List.replicate k 0) 5 pkt.length := by
  refine ⟨h5, getElem?_append_replicate_right pkt k 0 _ (le_refl _) (by omega), ?_⟩
  intro i hi h
  rw [getElem?_append_replicate_left pkt k 0 i hi]
  exact hnz i hi h

/-- A handshake of 10 bytes without terminator in a zeroed buffer of `10 + k`
bytes: `readHandshake` takes the zero at index 10 for the terminator. -/
theorem readHandshake_unterminated (p : MysqlProxy) (k : Nat) (hk : 34 ≤ k) :
    p.readHandshake ([6, 0, 0, 0, 10, 53, 46, 53, 46, 53] ++ List.replicate k 0) 10
      = some ⟨{ p with cipher := [0, 0, 0, 0, 0, 0, 0, 0], state := clientAuth },
          withClearedCaps ([6, 0, 0, 0, 10, 53, 46, 53, 46, 53] ++ List.replicate k 0) 10,
          10, []⟩ := by
  have hz : FirstZeroAt ([6, 0, 0, 0, 10, 53, 46, 53, 46, 53] ++ List.replicate k 0) 5 10 :=
    firstZero_behind_packet [6, 0, 0, 0, 10, 53, 46, 53, 46, 53] k (by omega) (by decide)
      (by decide)
  have h := readHandshake_eq p ([6, 0, 0, 0, 10, 53, 46, 53, 46, 53] ++ List.replicate k 0)
    10 10 hz (by simp; omega) (fun h => by omega)
  rw [if_neg (by omega)] at h
  have hc : (([6, 0, 0, 0, 10, 53, 46, 53, 46, 53] ++ List.replicate k 0).take (10 + 13)).drop
      (10 + 5) = [0, 0, 0, 0, 0, 0, 0, 0] := by
    apply List.ext_getElem?
    intro i
    rw [List.getElem?_drop, List.getElem?_take]
    by_cases hi : i < 8
    · rw [if_pos (by omega), getElem?_append_replicate_right _ _ _ _
        (by simp only [List.length_cons, List.length_nil]; omega)
        (by simp only [List.length_cons, List.length_nil]; omega)]
      interval_cases i <;> rfl
    · rw [if_neg (by omega), eq_comm, List.getElem?_eq_none_iff]
      simp; omega
  rw [hc] at h
  exact h

/-- C13 (unparseable handshake pass-through) fails: a 10-byte packet with no
`0x00` at indices 5..9, read into the relay's zeroed 4096-byte buffer.
`readHandshake` searches the terminator in the whole buffer, finds the zero at
index 10 behind the packet, moves the phase to `clientAuth` and captures a
challenge of 8 bytes from behind the packet. -/
theorem serverFilter_unterminated_handshake_advances :
    ([6, 0, 0, 0, 10, 53, 46, 53, 46, 53] ++ List.replicate 4086 0).length = 4 * 1024 ∧
    (∀ i, i < 10 → 5 ≤ i →
      ([6, 0, 0, 0, 10, 53, 46, 53, 46, 53] ++ List.replicate 4086 0)[i]? ≠ some 0) ∧
    ∃ out, (⟨⟨[], []⟩, serverHandshake, []⟩ : MysqlProxy).serverFilter
        ([6, 0, 0, 0, 10, 53, 46, 53, 46, 53] ++ List.replicate 4086 0) 10 = some out ∧
      out.n = 10 ∧ out.proxy.state = clientAuth ∧
      out.proxy.cipher = [0, 0, 0, 0, 0, 0, 0, 0] := by
  refine ⟨by simp only [List.length_append, List.length_replicate, List.length_cons,
    List.length_nil], ?_, ?_⟩
  · intro i hi h5
    rw [getElem?_append_replicate_left _ _ _ _ (by simpa using hi)]
    interval_cases i <;> decide
  · have h := readHandshake_unterminated ⟨⟨[], []⟩, serverHandshake, []⟩ 4086 (by omega)
    exact ⟨_, (serverFilter_of_serverHandshake _ _ _ rfl).trans h, rfl, rfl, rfl⟩

/-- An `established` client packet of fewer than 5 bytes in a buffer whose
byte 4 is the `COM_QUERY` code: the slice `data[5:n]` is out of range. -/
theorem clientFilter_short_query_fails (p : MysqlProxy) (data : List Nat) (n : Nat)
    (hs : p.state = established) (h4 : data[4]? = some comQuery) (hn : n < 5) :
    p.clientFilter data n = none := by
  rw [clientFilter_of_established p data n hs]
  unfold MysqlProxy.readClientPackage
  have hsl : slice data 5 n = none := by
    unfold slice
    rw [if_neg (by omega)]
  simp only [Option.bind_eq_bind, Option.pure_def, h4, Option.some_bind, if_pos, hsl,
    Option.none_bind]

/-- An auth packet whose auth-response length prefix runs past the logical
length: the slice `data[posEnd:n]` is out of range. -/
theorem readAuth_response_past_length_fails (p : MysqlProxy) (data : List Nat) (n u L : Nat)
    (hn : 36 < n) (hU : p.config.MySQLUser ≠ [])
    (hz : FirstZeroAt data 36 u) (hL : data[u + 1]? = some L) (he : n < u + 2 + L)
    (hlen : 36 ≤ data.length) :
    p.readAuth data n = none := by
  have hidx := indexByte_drop_of_firstZero hz
  obtain ⟨k, rfl⟩ : ∃ k, u = 36 + k := ⟨u - 36, by have := hz.1; omega⟩
  simp only [Nat.add_sub_cancel_left] at hidx
  have hUlen : p.config.MySQLUser.length ≠ 0 := by simpa using hU
  unfold MysqlProxy.readAuth
  rw [if_neg (by omega), if_neg hUlen]
  have h36 : sliceFrom data 36 = some (data.drop 36) := by simp [sliceFrom]; omega
  have hL' : data[k + 37]? = some L := by rw [← hL]; congr 1; omega
  have hsl : slice data (k + 37 + 1 + L) n = none := by
    unfold slice
    rw [if_neg (by omega)]
  simp only [Option.bind_eq_bind, Option.pure_def, h36, Option.some_bind, hidx, hL', hsl,
    Option.none_bind]

/-- A handshake whose terminator lies in the last 12 bytes of the buffer: the
slice `data[pos:pos+8]` of the first challenge fragment is out of range. -/
theorem readHandshake_terminator_at_end_fails (p : MysqlProxy) (data : List Nat) (n z : Nat)
    (hz : FirstZeroAt data 5 z) (hlen : data.length < z + 13) :
    p.readHandshake data n = none := by
  have hidx := indexByte_drop_of_firstZero hz
  have hzl : z < data.length := by
    have := hz.2.1
    by_contra hc
    rw [List.getElem?_eq_none_iff.mpr (by omega)] at this
    exact absurd this (by simp)
  obtain ⟨k, rfl⟩ : ∃ k, z = 5 + k := ⟨z - 5, by have := hz.1; omega⟩
  simp only [Nat.add_sub_cancel_left] at hidx
  unfold MysqlProxy.readHandshake
  have h5 : sliceFrom data 5 = some (data.drop 5) := by simp [sliceFrom]; omega
  have hsl : slice data (k + 10) (k + 10 + 8) = none := by
    unfold slice
    rw [if_neg (by omega)]
  simp only [Option.bind_eq_bind, Option.pure_def, h5, Option.some_bind, hidx, hsl,
    Option.none_bind]

/-- C14 (malformed packets are never fatal) fails in the relay's 4096-byte
buffer: an `established` client packet of 4 bytes while byte 4 of the buffer
holds the `COM_QUERY` code, an auth packet of 40 bytes whose auth-response
length prefix (200) runs past the packet, and a server packet of 4096 bytes
whose first `0x00` from index 5 on is at index 4090, each make the filter fail
with a slice bound out of range instead of returning; and a handshake of 10
bytes, truncated behind its version string, is not passed through with the
phase unchanged: the phase moves to `clientAuth`. -/
theorem filters_fail_on_short_packets :
    (([4, 0, 0, 0, 3] ++ List.replicate 4091 0).length = 4 * 1024 ∧
      (⟨⟨[], []⟩, established, []⟩ : MysqlProxy).clientFilter
        ([4, 0, 0, 0, 3] ++ List.replicate 4091 0) 4 = none) ∧
    ((List.replicate 36 1 ++ [97, 0, 200] ++ List.replicate 4057 0).length = 4 * 1024 ∧
      (⟨⟨[98, 111, 98], []⟩, clientAuth, []⟩ : MysqlProxy).clientFilter
        (List.replicate 36 1 ++ [97, 0, 200] ++ List.replicate 4057 0) 40 = none) ∧
    ((List.replicate 4090 1 ++ [0] ++ List.replicate 5 1).length = 4 * 1024 ∧
      (⟨⟨[], []⟩, serverHandshake, []⟩ : MysqlProxy).serverFilter
        (List.replicate 4090 1 ++ [0] ++ List.replicate 5 1) 4096 = none) ∧
    (([6, 0, 0, 0, 10, 53, 0, 1, 2, 3] ++ List.replicate 4086 0).length = 4 * 1024 ∧
      ∃ out, (⟨⟨[], []⟩, serverHandshake, []⟩ : MysqlProxy).serverFilter
        ([6, 0, 0, 0, 10, 53, 0, 1, 2, 3] ++ List.replicate 4086 0) 10 = some out ∧
        out.proxy.state = clientAuth) := by
  refine ⟨⟨?_, ?_⟩, ⟨?_, ?_⟩, ⟨?_, ?_⟩, ⟨?_, ?_⟩⟩
  · simp only [List.length_append, List.length_replicate, List.length_cons, List.length_nil]
  · exact clientFilter_short_query_fails _ _ 4 rfl
      (by rw [getElem?_append_replicate_left _ _ _ _ (by decide)]; rfl) (by omega)
  · simp only [List.length_append, List.length_replicate, List.length_cons, List.length_nil]
  · rw [clientFilter_of_clientAuth _ _ _ rfl]
    have hget : ∀ i, i < 39 → (List.replicate 36 1 ++ [97, 0, 200] ++ List.replicate 4057 0)[i]?
        = (List.replicate 36 1 ++ [97, 0, 200])[i]? := fun i hi =>
      getElem?_append_replicate_left _ _ _ _ (by
        simp only [List.length_append, List.length_replicate, List.length_cons, List.length_nil]
        omega)
    refine readAuth_response_past_length_fails _ _ 40 37 200 (by omega) (by decide)
      ⟨by omega, by rw [hget 37 (by omega)]; decide, fun i hi h36 => ?_⟩
      (by rw [hget _ (by omega)]; decide) (by omega)
      (by simp only [List.length_append, List.length_replicate, List.length_cons,
        List.length_nil]; omega)
    have : i = 36 := by omega
    subst this
    rw [hget 36 (by omega)]; decide
  · simp only [List.length_append, List.length_replicate, List.length_cons, List.length_nil]
  · rw [serverFilter_of_serverHandshake _ _ _ rfl]
    refine readHandshake_terminator_at_end_fails _ _ 4096 4090 ⟨by omega, ?_, fun i hi h5 => ?_⟩
      (by simp only [List.length_append, List.length_replicate, List.length_cons,
        List.length_nil]; omega)
    · rw [List.getElem?_append_left (by
        simp only [List.length_append, List.length_replicate, List.length_cons, List.length_nil]
        omega), List.getElem?_append_right (by simp only [List.length_replicate]; omega)]
      simp only [List.length_replicate, Nat.sub_self]
      rfl
    · rw [List.getElem?_append_left (by
        simp only [List.length_append, List.length_replicate, List.length_cons, List.length_nil]
        omega), List.getElem?_append_left (by simp only [List.length_replicate]; omega),
        List.getElem?_replicate, if_pos hi]
      decide
  · simp only [List.length_append, List.length_replicate, List.length_cons, List.length_nil]
  · have hget : ∀ i, i < 10 → ([6, 0, 0, 0, 10, 53, 0, 1, 2, 3] ++ List.replicate 4086 0)[i]?
        = [6, 0, 0, 0, 10, 53, 0, 1, 2, 3][i]? := fun i hi =>
      getElem?_append_replicate_left _ _ _ _ (by simpa using hi)
    have h := readHandshake_eq ⟨⟨[], []⟩, serverHandshake, []⟩
      ([6, 0, 0, 0, 10, 53, 0, 1, 2, 3] ++ List.replicate 4086 0) 10 6
      ⟨by omega, by rw [hget 6 (by omega)]; rfl, fun i hi h5 => by
        have : i = 5 := by omega
        subst this
        rw [hget 5 (by omega)]; decide⟩
      (by simp only [List.length_append, List.length_replicate, List.length_cons,
        List.length_nil]; omega)
      (fun h => by omega)
    exact ⟨_, (serverFilter_of_serverHandshake _ _ _ rfl).trans h, rfl⟩

/-- A handshake whose first challenge fragment fits the buffer but whose low
capability flags do not (`z + 13 ≤ len < z + 16`): the slice `data[pos:pos+2]`
read by `Uint16` is out of range, whatever the logical length. -/
theorem readHandshake_caps_past_buffer_fails (p : MysqlProxy) (data : List Nat) (n z : Nat)
    (hz : FirstZeroAt data 5 z) (h13 : z + 13 ≤ data.length) (hlen : data.length < z + 16) :
    p.readHandshake data n = none := by
  have hidx := indexByte_drop_of_firstZero hz
  obtain ⟨k, rfl⟩ : ∃ k, z = 5 + k := ⟨z - 5, by have := hz.1; omega⟩
  simp only [Nat.add_sub_cancel_left] at hidx
  unfold MysqlProxy.readHandshake
  have h5 : sliceFrom data 5 = some (data.drop 5) := by simp [sliceFrom]; omega
  have hu : uint16At data (k + 10 + 9) = none := by
    unfold uint16At slice
    rw [if_neg (by omega)]
    rfl
  simp only [Option.bind_eq_bind, Option.pure_def, h5, Option.some_bind, hidx,
    slice_eq_some data (k + 10) (k + 10 + 8) (by omega) (by omega), hu, Option.none_bind]

/-- C5 (challenge extraction) fails in its short case at the end of the relay's
4096-byte buffer: a server packet of 4096 bytes whose version-string
terminator, the first `0x00` at or after index 5, is at `z = 4081`, so that
`n = 4096 ≤ q = z + 32` and the first fragment `F1 = data[4086 .. 4094)` lies
in the packet.  `readHandshake` copies `F1`, then reads the low capability
flags at `data[4095 .. 4097)` before it looks at `n`: the slice bound is out
of range, the call fails and no challenge is captured. -/
theorem readHandshake_short_case_fails_at_buffer_end :
    (List.replicate 4081 1 ++ [0] ++ List.replicate 14 1).length = 4 * 1024 ∧
    FirstZeroAt (List.replicate 4081 1 ++ [0] ++ List.replicate 14 1) 5 4081 ∧
    4096 ≤ 4081 + 32 ∧
    (((List.replicate 4081 1 ++ [0] ++ List.replicate 14 1).take (4081 + 13)).drop
      (4081 + 5)).length = 8 ∧
    (⟨⟨[], []⟩, serverHandshake, []⟩ : MysqlProxy).readHandshake
      (List.replicate 4081 1 ++ [0] ++ List.replicate 14 1) 4096 = none ∧
    (⟨⟨[], []⟩, serverHandshake, []⟩ : MysqlProxy).serverFilter
      (List.replicate 4081 1 ++ [0] ++ List.replicate 14 1) 4096 = none := by
  have hlen : (List.replicate 4081 1 ++ [0] ++ List.replicate 14 1).length = 4 * 1024 := by
    simp only [List.length_append, List.length_replicate, List.length_cons, List.length_nil]
  have hz : FirstZeroAt (List.replicate 4081 1 ++ [0] ++ List.replicate 14 1) 5 4081 := by
    refine ⟨by omega, ?_, fun i hi h5 => ?_⟩
    · rw [List.getElem?_append_left (by
        simp only [List.length_append, List.length_replicate, List.length_cons, List.length_nil]
        omega), List.getElem?_append_right (by simp only [List.length_replicate]; omega)]
      simp only [List.length_replicate, Nat.sub_self]
      rfl
    · rw [List.getElem?_append_left (by
        simp only [List.length_append, List.length_replicate, List.length_cons, List.length_nil]
        omega), List.getElem?_append_left (by simp only [List.length_replicate]; omega),
        List.getElem?_replicate, if_pos hi]
      decide
  have hnone := readHandshake_caps_past_buffer_fails ⟨⟨[], []⟩, serverHandshake, []⟩
    (List.replicate 4081 1 ++ [0] ++ List.replicate 14 1) 4096 4081 hz
    (by rw [hlen]; omega) (by rw [hlen]; omega)
  refine ⟨hlen, hz, by omega, ?_, hnone, ?_⟩
  · rw [length_drop_take _ _ _ (by rw [hlen]; omega)]
  · rw [serverFilter_of_serverHandshake _ _ _ rfl]
    exact hnone

/-- C15 (short challenge is exactly 8 bytes) fails for a packet that holds part
of the second fragment: a handshake with terminator at `z = 6` and logical
length `n = 40` (`z+32 < n < z+44`) in the relay's zeroed 4096-byte buffer.
`readHandshake` tests `n > z+32` only, copies the 12 bytes `data[38 .. 50)` and
keeps a challenge of 20 bytes, the last 10 of them from behind the packet. -/
theorem readHandshake_partial_fragment_challenge :
    ([36, 0, 0, 0, 10, 53, 0, 9, 9, 9, 9, 1, 2, 3, 4, 5, 6, 7, 8, 0, 255, 247, 8, 2, 0, 15,
        128, 21, 0, 0, 0, 0, 0, 0, 0, 0, 0, 0, 71, 72] ++ List.replicate 4056 0).length
      = 4 * 1024 ∧
    FirstZeroAt ([36, 0, 0, 0, 10, 53, 0, 9, 9, 9, 9, 1, 2, 3, 4, 5, 6, 7, 8, 0, 255, 247, 8,
        2, 0, 15, 128, 21, 0, 0, 0, 0, 0, 0, 0, 0, 0, 0, 71, 72] ++ List.replicate 4056 0) 5 6 ∧
    ∃ out, (⟨⟨[], []⟩, serverHandshake, []⟩ : MysqlProxy).readHandshake
        ([36, 0, 0, 0, 10, 53, 0, 9, 9, 9, 9, 1, 2, 3, 4, 5, 6, 7, 8, 0, 255, 247, 8, 2, 0, 15,
          128, 21, 0, 0, 0, 0, 0, 0, 0, 0, 0, 0, 71, 72] ++ List.replicate 4056 0) 40
        = some out ∧
      out.proxy.cipher.length = 20 ∧
      out.proxy.cipher
        = [1, 2, 3, 4, 5, 6, 7, 8] ++ [71, 72] ++ [0, 0, 0, 0, 0, 0, 0, 0, 0, 0] := by
  have hlen : ([36, 0, 0, 0, 10, 53, 0, 9, 9, 9, 9, 1, 2, 3, 4, 5, 6, 7, 8, 0, 255, 247, 8, 2,
      0, 15, 128, 21, 0, 0, 0, 0, 0, 0, 0, 0, 0, 0, 71, 72] ++ List.replicate 4056 0).length
      = 4 * 1024 := by
    simp only [List.length_append, List.length_replicate, List.length_cons, List.length_nil]
  have hget : ∀ i, i < 40 → ([36, 0, 0, 0, 10, 53, 0, 9, 9, 9, 9, 1, 2, 3, 4, 5, 6, 7, 8, 0,
      255, 247, 8, 2, 0, 15, 128, 21, 0, 0, 0, 0, 0, 0, 0, 0, 0, 0, 71, 72]
        ++ List.replicate 4056 0)[i]?
      = [36, 0, 0, 0, 10, 53, 0, 9, 9, 9, 9, 1, 2, 3, 4, 5, 6, 7, 8, 0, 255, 247, 8, 2, 0, 15,
          128, 21, 0, 0, 0, 0, 0, 0, 0, 0, 0, 0, 71, 72][i]? := fun i hi =>
    getElem?_append_replicate_left _ _ _ _ (by simpa using hi)
  have hz : FirstZeroAt ([36, 0, 0, 0, 10, 53, 0, 9, 9, 9, 9, 1, 2, 3, 4, 5, 6, 7, 8, 0, 255,
      247, 8, 2, 0, 15, 128, 21, 0, 0, 0, 0, 0, 0, 0, 0, 0, 0, 71, 72]
        ++ List.replicate 4056 0) 5 6 :=
    ⟨by omega, by rw [hget 6 (by omega)]; rfl, fun i hi h5 => by
      have : i = 5 := by omega
      subst this
      rw [hget 5 (by omega)]; decide⟩
  have h := readHandshake_eq ⟨⟨[], []⟩, serverHandshake, []⟩ _ 40 6 hz (by rw [hlen]; omega)
    (fun _ => by rw [hlen]; omega)
  rw [if_pos (by omega)] at h
  have hc : (([36, 0, 0, 0, 10, 53, 0, 9, 9, 9, 9, 1, 2, 3, 4, 5, 6, 7, 8, 0, 255, 247, 8, 2,
      0, 15, 128, 21, 0, 0, 0, 0, 0, 0, 0, 0, 0, 0, 71, 72] ++ List.replicate 4056 0).take
        (6 + 13)).drop (6 + 5)
      ++ (([36, 0, 0, 0, 10, 53, 0, 9, 9, 9, 9, 1, 2, 3, 4, 5, 6, 7, 8, 0, 255, 247, 8, 2,
      0, 15, 128, 21, 0, 0, 0, 0, 0, 0, 0, 0, 0, 0, 71, 72] ++ List.replicate 4056 0).take
        (6 + 44)).drop (6 + 32)
      = [1, 2, 3, 4, 5, 6, 7, 8] ++ [71, 72] ++ [0, 0, 0, 0, 0, 0, 0, 0, 0, 0] := by
    rfl
  rw [hc] at h
  exact ⟨hlen, hz, _, h, rfl, rfl⟩

/-! ## The challenge handed to the scrambler -/

theorem readHandshake_cipher (p : MysqlProxy) (data : List Nat) (n : Nat) (out : Filtered)
    (h : p.readHandshake data n = some out) :
    out.proxy = p ∨ (out.proxy.state = clientAuth ∧
      (out.proxy.cipher.length = 8 ∨ out.proxy.cipher.length = 20)) := by
  unfold MysqlProxy.readHandshake at h
  simp only [Option.bind_eq_bind, Option.pure_def] at h
  rcases Option.bind_eq_some.mp h with ⟨rest, _, h⟩
  split at h
  · simp at h; subst h; exact Or.inl rfl
  · rcases Option.bind_eq_some.mp h with ⟨_, _, h⟩
    rcases Option.bind_eq_some.mp h with ⟨_, _, h⟩
    rcases Option.bind_eq_some.mp h with ⟨_, _, h⟩
    split at h
    · rcases Option.bind_eq_some.mp h with ⟨_, _, h⟩
      simp at h; subst h
      exact Or.inr ⟨rfl, Or.inr (by simp [length_copyAt])⟩
    · simp at h; subst h
      exact Or.inr ⟨rfl, Or.inl (by simp [length_copyAt])⟩

theorem readAuth_proxy (p : MysqlProxy) (data : List Nat) (n : Nat) (out : Filtered)
    (h : p.readAuth data n = some out) :
    out.proxy = p ∨ out.proxy = { p with state := established } := by
  unfold MysqlProxy.readAuth at h
  split at h
  · simp at h; subst h; exact Or.inl rfl
  · split at h
    · simp at h; subst h; exact Or.inr rfl
    · simp only [Option.bind_eq_bind, Option.pure_def] at h
      rcases Option.bind_eq_some.mp h with ⟨rest, _, h⟩
      split at h
      · simp at h; subst h; exact Or.inl rfl
      · rcases Option.bind_eq_some.mp h with ⟨_, _, h⟩
        rcases Option.bind_eq_some.mp h with ⟨_, _, h⟩
        rcases Option.bind_eq_some.mp h with ⟨_, _, h⟩
        rcases Option.bind_eq_some.mp h with ⟨_, _, h⟩
        rcases Option.bind_eq_some.mp h with ⟨_, _, h⟩
        rcases Option.bind_eq_some.mp h with ⟨_, _, h⟩
        rcases Option.bind_eq_some.mp h with ⟨_, _, h⟩
        rcases Option.bind_eq_some.mp h with ⟨_, _, h⟩
        rcases Option.bind_eq_some.mp h with ⟨_, _, h⟩
        rcases Option.bind_eq_some.mp h with ⟨_, _, h⟩
        rcases Option.bind_eq_some.mp h with ⟨_, _, h⟩
        rcases Option.bind_eq_some.mp h with ⟨_, _, h⟩
        simp at h; subst h; exact Or.inr rfl

/-- Once a session is past the handshake phase and not stopped, its challenge
has 8 or 20 bytes. -/
theorem filterReachable_cipher {p0 p : MysqlProxy} (h0 : p0.state = serverHandshake)
    (hr : FilterReachable p0 p) :
    (p.state = clientAuth ∨ p.state = established) →
      (p.cipher.length = 8 ∨ p.cipher.length = 20) := by
  induction hr with
  | init =>
    intro h
    rcases h with h | h <;> rw [h0] at h <;> exact absurd h (by decide)
  | server p data n out _ hstep ih =>
    intro hs
    unfold MysqlProxy.serverFilter at hstep
    split at hstep
    · next hp =>
      rcases readHandshake_cipher p data n out hstep with h | h
      · rw [h] at hs
        rcases hs with h | h <;> rw [hp] at h <;> exact absurd h (by decide)
      · exact h.2
    · simp at hstep; subst hstep
      exact ih hs
  | client p data n out _ hstep ih =>
    intro hs
    unfold MysqlProxy.clientFilter at hstep
    split at hstep
    · next hp =>
      rcases readAuth_proxy p data n out hstep with h | h
      · rw [h] at hs ⊢; exact ih hs
      · rw [h]; exact ih (Or.inl hp)
    · split at hstep
      · rw [readClientPackage_proxy p data n out hstep] at hs ⊢
        exact ih hs
      · simp at hstep; subst hstep
        exact ih hs

theorem scrambleCall_args (p : MysqlProxy) (data : List Nat) (n : Nat) (c pw : List Nat)
    (h : p.scrambleCall data n = some (c, pw)) :
    c = p.cipher ∧ pw = p.config.MySQLPassword := by
  unfold MysqlProxy.scrambleCall at h
  split at h
  · simp at h
  · split at h
    · simp at h
    · simp only [Option.bind_eq_bind, Option.pure_def] at h
      rcases Option.bind_eq_some.mp h with ⟨rest, _, h⟩
      split at h
      · simp at h
      · rcases Option.bind_eq_some.mp h with ⟨_, _, h⟩
        simp at h
        exact ⟨h.1.symm, h.2.symm⟩

/-- C16 fails as stated: from the initial session, `serverFilter` on a
handshake that holds the first fragment only (terminator at `z = 6`, logical
length `38 = z+32`) leaves phase `clientAuth` with a challenge of 8 bytes, and
`readAuth` on a well-formed auth packet then calls `scramblePassword` with that
8-byte challenge and the non-empty password "secret". -/
theorem scramble_called_with_short_challenge :
    ∃ o1, (⟨⟨[98, 111, 98], [115, 101, 99, 114, 101, 116]⟩, serverHandshake, []⟩ :
        MysqlProxy).serverFilter
        ([34, 0, 0, 0, 10, 53, 0, 9, 9, 9, 9, 1, 2, 3, 4, 5, 6, 7, 8, 0, 255, 247, 8, 2, 0, 0,
          0, 0, 0, 0, 0, 0, 0, 0, 0, 0, 0, 0] ++ List.replicate 26 0) 38 = some o1 ∧
      FilterReachable ⟨⟨[98, 111, 98], [115, 101, 99, 114, 101, 116]⟩, serverHandshake, []⟩
        o1.proxy ∧
      o1.proxy.state = clientAuth ∧
      o1.proxy.scrambleCall
        ([42, 0, 0, 1] ++ List.replicate 32 0 ++ [97, 0, 0]
          ++ [100, 98, 110, 97, 109, 101, 0] ++ List.replicate 68 0) 46
        = some ([1, 2, 3, 4, 5, 6, 7, 8], [115, 101, 99, 114, 101, 116]) ∧
      ([115, 101, 99, 114, 101, 116] : List Nat) ≠ [] ∧
      ([1, 2, 3, 4, 5, 6, 7, 8] : List Nat).length ≠ 20 := by
  have h1 : (⟨⟨[98, 111, 98], [115, 101, 99, 114, 101, 116]⟩, serverHandshake, []⟩ :
      MysqlProxy).serverFilter
      ([34, 0, 0, 0, 10, 53, 0, 9, 9, 9, 9, 1, 2, 3, 4, 5, 6, 7, 8, 0, 255, 247, 8, 2, 0, 0,
        0, 0, 0, 0, 0, 0, 0, 0, 0, 0, 0, 0] ++ List.replicate 26 0) 38
      = some ⟨⟨⟨[98, 111, 98], [115, 101, 99, 114, 101, 116]⟩, clientAuth,
          [1, 2, 3, 4, 5, 6, 7, 8]⟩,
        [34, 0, 0, 0, 10, 53, 0, 9, 9, 9, 9, 1, 2, 3, 4, 5, 6, 7, 8, 0, 255, 247, 8, 2, 0, 0,
          0, 0, 0, 0, 0, 0, 0, 0, 0, 0, 0, 0] ++ List.replicate 26 0, 38, []⟩ := by
    decide
  exact ⟨_, h1, FilterReachable.server _ _ _ _ FilterReachable.init h1, rfl, by decide,
    by decide, by decide⟩

/-- C16 as amended: in every session reachable from phase `serverHandshake` by
`serverFilter` and `clientFilter` steps, whenever `readAuth` (phase
`clientAuth`) calls `scramblePassword`, the challenge passed is the session's
captured challenge, the password the override password, and the challenge has
length exactly 8 or exactly 20. -/
theorem scramble_challenge_length (p0 p : MysqlProxy) (data : List Nat) (n : Nat)
    (c pw : List Nat) (h0 : p0.state = serverHandshake) (hr : FilterReachable p0 p)
    (hs : p.state = clientAuth) (hc : p.scrambleCall data n = some (c, pw)) :
    c = p.cipher ∧ pw = p.config.MySQLPassword ∧ (c.length = 8 ∨ c.length = 20) := by
  obtain ⟨h1, h2⟩ := scrambleCall_args p data n c pw hc
  refine ⟨h1, h2, ?_⟩
  rw [h1]
  exact filterReachable_cipher h0 hr (Or.inl hs)

theorem scramble_challenge_length_witness :
    ([1, 2, 3, 4, 5, 6, 7, 8] : List Nat)
      = (⟨⟨[98, 111, 98], [115, 101, 99, 114, 101, 116]⟩, clientAuth,
          [1, 2, 3, 4, 5, 6, 7, 8]⟩ : MysqlProxy).cipher ∧
    ([115, 101, 99, 114, 101, 116] : List Nat)
      = (⟨⟨[98, 111, 98], [115, 101, 99, 114, 101, 116]⟩, clientAuth,
          [1, 2, 3, 4, 5, 6, 7, 8]⟩ : MysqlProxy).config.MySQLPassword ∧
    (([1, 2, 3, 4, 5, 6, 7, 8] : List Nat).length = 8 ∨
      ([1, 2, 3, 4, 5, 6, 7, 8] : List Nat).length = 20) :=
  scramble_challenge_length
    ⟨⟨[98, 111, 98], [115, 101, 99, 114, 101, 116]⟩, serverHandshake, []⟩
    ⟨⟨[98, 111, 98], [115, 101, 99, 114, 101, 116]⟩, clientAuth, [1, 2, 3, 4, 5, 6, 7, 8]⟩
    ([42, 0, 0, 1] ++ List.replicate 32 0 ++ [97, 0, 0]
      ++ [100, 98, 110, 97, 109, 101, 0] ++ List.replicate 68 0) 46
    [1, 2, 3, 4, 5, 6, 7, 8] [115, 101, 99, 114, 101, 116] rfl
    (FilterReachable.server
      ⟨⟨[98, 111, 98], [115, 101, 99, 114, 101, 116]⟩, serverHandshake, []⟩
      ([34, 0, 0, 0, 10, 53, 0, 9, 9, 9, 9, 1, 2, 3, 4, 5, 6, 7, 8, 0, 255, 247, 8, 2, 0, 0,
        0, 0, 0, 0, 0, 0, 0, 0, 0, 0, 0, 0] ++ List.replicate 26 0) 38
      ⟨⟨⟨[98, 111, 98], [115, 101, 99, 114, 101, 116]⟩, clientAuth,
          [1, 2, 3, 4, 5, 6, 7, 8]⟩,
        [34, 0, 0, 0, 10, 53, 0, 9, 9, 9, 9, 1, 2, 3, 4, 5, 6, 7, 8, 0, 255, 247, 8, 2, 0, 0,
          0, 0, 0, 0, 0, 0, 0, 0, 0, 0, 0, 0] ++ List.replicate 26 0, 38, []⟩
      FilterReachable.init (by decide))
    rfl (by decide)

/-! ## End to end -/

theorem withClearedCaps_frame (data : List Nat) (z : Nat) (hb : ∀ b ∈ data, b < 256)
    (hlen : z + 16 ≤ data.length) (i : Nat) (hi : i ≠ z + 15) :
    (withClearedCaps data z)[i]? = data[i]? := by
  have hlo : data.getD (z + 14) 0 < 256 := by
    rw [List.getD_eq_getElem _ _ (show z + 14 < data.length by omega)]
    exact hb _ (List.getElem_mem _)
  have hhi : data.getD (z + 15) 0 < 256 := by
    rw [List.getD_eq_getElem _ _ (show z + 15 < data.length by omega)]
    exact hb _ (List.getElem_mem _)
  by_cases h14 : i = z + 14
  · subst h14
    unfold withClearedCaps
    rw [List.getElem?_set_ne (by omega), List.getElem?_set_self (by omega)]
    unfold clearedCaps
    rw [cleared_lo _ _ hlo hhi, List.getD_eq_getElem _ _ (show z + 14 < data.length by omega),
      List.getElem?_eq_getElem]
  · exact getElem?_withClearedCaps_of_ne data z i h14 hi

theorem withClearedCaps_bits (data : List Nat) (z : Nat) (hb : ∀ b ∈ data, b < 256)
    (hlen : z + 16 ≤ data.length) (j : Nat) :
    (uint16LE (withClearedCaps data z) (z + 14)).testBit j
      = ((uint16LE data (z + 14)).testBit j && decide (j ≠ 11)) := by
  have hlo : data.getD (z + 14) 0 < 256 := by
    rw [List.getD_eq_getElem _ _ (show z + 14 < data.length by omega)]
    exact hb _ (List.getElem_mem _)
  have hhi : data.getD (z + 15) 0 < 256 := by
    rw [List.getD_eq_getElem _ _ (show z + 15 < data.length by omega)]
    exact hb _ (List.getElem_mem _)
  rw [uint16LE_withClearedCaps data z hlen]
  exact cleared_testBit _ _ j hlo hhi

/-- C18 (end-to-end session): from phase `serverHandshake` with a non-empty
override username `U` and override password `P`: `serverFilter` on a full
handshake `H` (bytes; terminator at `z`, `z+44 ≤ nH ≤` buffer length) returns
`nH`, changes no byte but the one at `z+15`, where it clears bit 11 of the low
capability field only, captures the 20-byte challenge
`c = H[z+5 .. z+13) ++ H[z+32 .. z+44)` and moves the phase to `clientAuth`;
then `clientFilter` on a well-formed auth packet `A` (buffer of sufficient
capacity) moves the phase to `established` and writes `U`, `0x00`, `len(s)`, `s`
from index 36 with `s = scramblePassword(c, P)`; then `clientFilter` on a
`COM_QUERY` packet `Q` (`5 ≤ nQ ≤` buffer length) returns `nQ`, leaves `Q` and
the phase unchanged and logs `Q[5 .. nQ)`. -/
theorem session_end_to_end (p : MysqlProxy) (H A Q : List Nat) (nH nA nQ z u L : Nat)
    (hs : p.state = serverHandshake) (hU : p.config.MySQLUser ≠ [])
    (hbH : ∀ b ∈ H, b < 256) (hz : FirstZeroAt H 5 z) (hfull : z + 44 ≤ nH)
    (hnH : nH ≤ H.length)
    (hnA : 36 < nA) (hu : FirstZeroAt A 36 u) (hL : A[u + 1]? = some L)
    (he : u + 2 + L ≤ nA)
    (hcap : nA + authLength p.config.MySQLUser
        (scramblePassword ((H.take (z + 13)).drop (z + 5) ++ (H.take (z + 44)).drop (z + 32))
          p.config.MySQLPassword) nA (u + 2 + L) ≤ A.length)
    (hQ : Q[4]? = some comQuery) (h5 : 5 ≤ nQ) (hnQ : nQ ≤ Q.length) :
    ∃ o1 o2 o3,
      p.serverFilter H nH = some o1 ∧ o1.n = nH ∧ o1.proxy.state = clientAuth ∧
      o1.proxy.cipher = (H.take (z + 13)).drop (z + 5) ++ (H.take (z + 44)).drop (z + 32) ∧
      o1.proxy.cipher.length = 20 ∧
      (∀ i, i ≠ z + 15 → o1.data[i]? = H[i]?) ∧
      (∀ j, (uint16LE o1.data (z + 14)).testBit j
        = ((uint16LE H (z + 14)).testBit j && decide (j ≠ 11))) ∧
      o1.proxy.clientFilter A nA = some o2 ∧ o2.proxy.state = established ∧
      (o2.data.drop 36).take (p.config.MySQLUser.length + 2
          + (scramblePassword o1.proxy.cipher p.config.MySQLPassword).length)
        = p.config.MySQLUser ++ [0x00]
          ++ [(scramblePassword o1.proxy.cipher p.config.MySQLPassword).length]
          ++ scramblePassword o1.proxy.cipher p.config.MySQLPassword ∧
      o2.proxy.clientFilter Q nQ = some o3 ∧ o3.n = nQ ∧ o3.data = Q ∧
      o3.proxy.state = established ∧ o3.logged = [(Q.take nQ).drop 5] := by
  have h1 := (serverFilter_of_serverHandshake p H nH hs).trans
    (readHandshake_eq p H nH z hz (by omega) (fun _ => by omega))
  rw [if_pos (by omega)] at h1
  generalize hc : (H.take (z + 13)).drop (z + 5) ++ (H.take (z + 44)).drop (z + 32) = c at *
  have hclen : c.length = 20 := by
    rw [← hc, List.length_append, length_drop_take _ _ _ (by omega),
      length_drop_take _ _ _ (by omega)]
    omega
  have hs256 : (scramblePassword c p.config.MySQLPassword).length % 256
      = (scramblePassword c p.config.MySQLPassword).length := by
    rw [length_scramblePassword]; split <;> rfl
  have h2 := (clientFilter_of_clientAuth
      ({ p with cipher := c, state := clientAuth } : MysqlProxy) A nA rfl).trans
    (readAuth_eq ({ p with cipher := c, state := clientAuth } : MysqlProxy) A nA u L hnA hU hu
      hL he hcap)
  have hf := rewritten_fields A nA (u + 2 + L) p.config.MySQLUser
    (scramblePassword c p.config.MySQLPassword)
    (36 + p.config.MySQLUser.length + 2
      + (scramblePassword c p.config.MySQLPassword).length + (nA - (u + 2 + L)))
    (by unfold authLength at hcap; omega)
  rw [hs256] at hf
  have h3 := (clientFilter_of_established
      ({ p with cipher := c, state := established } : MysqlProxy) Q nQ rfl).trans
    (readClientPackage_eq ({ p with cipher := c, state := established } : MysqlProxy) Q nQ
      comQuery hQ h5 hnQ)
  rw [if_pos rfl] at h3
  exact ⟨_, _, _, h1, rfl, rfl, rfl, hclen,
    fun i hi => withClearedCaps_frame H z hbH (by omega) i hi,
    fun j => withClearedCaps_bits H z hbH (by omega) j,
    h2, rfl, hf, h3, rfl, rfl, rfl, rfl⟩

theorem session_end_to_end_witness :
    ∃ o1 o2 o3,
      sampleProxy.serverFilter sampleHandshake 51 = some o1 ∧ o1.n = 51 ∧
      o1.proxy.state = clientAuth ∧
      o1.proxy.cipher = (sampleHandshake.take (6 + 13)).drop (6 + 5)
        ++ (sampleHandshake.take (6 + 44)).drop (6 + 32) ∧
      o1.proxy.cipher.length = 20 ∧
      (∀ i, i ≠ 6 + 15 → o1.data[i]? = sampleHandshake[i]?) ∧
      (∀ j, (uint16LE o1.data (6 + 14)).testBit j
        = ((uint16LE sampleHandshake (6 + 14)).testBit j && decide (j ≠ 11))) ∧
      o1.proxy.clientFilter sampleAuth 70 = some o2 ∧ o2.proxy.state = established ∧
      (o2.data.drop 36).take (sampleProxy.config.MySQLUser.length + 2
          + (scramblePassword o1.proxy.cipher sampleProxy.config.MySQLPassword).length)
        = sampleProxy.config.MySQLUser ++ [0x00]
          ++ [(scramblePassword o1.proxy.cipher sampleProxy.config.MySQLPassword).length]
          ++ scramblePassword o1.proxy.cipher sampleProxy.config.MySQLPassword ∧
      o2.proxy.clientFilter sampleQuery 13 = some o3 ∧ o3.n = 13 ∧ o3.data = sampleQuery ∧
      o3.proxy.state = established ∧ o3.logged = [(sampleQuery.take 13).drop 5] :=
  session_end_to_end sampleProxy sampleHandshake sampleAuth sampleQuery 51 70 13 6 41 20
    rfl (by decide) (by decide) ⟨by decide, by decide, by decide⟩ (by decide) (by decide)
    (by decide) ⟨by decide, by decide, by decide⟩ (by decide) (by decide) (by decide)
    (by decide) (by decide) (by decide)

end Mysqlproxy
